import Mathlib

/-!
Verification development for the Auto-Claude orchestration engine.

This file gives a shallow embedding, in Lean 4, of the parts of the
repository that the specification's testable claims are about:

* `security/validator.py` — the per-command validators (pkill, kill,
  killall, chmod, rm, init.sh, git commit, dropdb, dropuser, psql, mysql,
  redis-cli, mongosh, mysqladmin) together with a model of Python's
  `shlex.split` tokenizer and of the handful of regular expressions the
  validators use.
* the review-state machine (`review/state.py` is referenced by the test
  suite but is not part of the provided sources, so it is modelled from
  the specification).
* the QA recurring-issue detector (`qa/report.py`, likewise modelled from
  the specification) and the QA validation loop (`qa/loop.py`).
* the spec-creation phase executor (`spec/phases.py`).

External collaborators (the LLM agent runtime, analyzer scripts, the
structural spec validator, the secret scanner, the knowledge-graph
provider) are modelled as explicit oracle parameters, following the
specification's interface-boundary treatment.
-/

/-! ## Small Python-string helpers -/

/-- ASCII apostrophe as a one-character string (used to reproduce the
Python reason messages, which quote values with single quotes). -/
def apos : String := (Char.ofNat 39).toString

/-- The single-quote character. -/
def sqC : Char := Char.ofNat 39

/-- The double-quote character. -/
def dqC : Char := Char.ofNat 34

/-- The backslash character. -/
def bsC : Char := Char.ofNat 92

/-- String starts-with on the underlying character lists (Python
`str.startswith`). -/
def strStarts (s p : String) : Bool := p.data.isPrefixOf s.data

/-- String ends-with on the underlying character lists (Python
`str.endswith`). -/
def strEnds (s p : String) : Bool := p.data.reverse.isPrefixOf s.data.reverse

/-- Character membership in a string (Python `c in s` for a
one-character `c`). -/
def strHasChar (s : String) (c : Char) : Bool := s.data.contains c

/-- Python `str.lower` (ASCII). -/
def strLower (s : String) : String := String.mk (s.data.map Char.toLower)

/-- Python `str.upper` (ASCII). -/
def strUpper (s : String) : String := String.mk (s.data.map Char.toUpper)

/-- Python `s[n:]`. -/
def strDrop (s : String) (n : Nat) : String := String.mk (s.data.drop n)

/-- Join a list of strings with a separator (Python `sep.join`). -/
def strJoin (sep : String) : List String → String
  | [] => ""
  | [x] => x
  | x :: xs => x ++ sep ++ strJoin sep xs

/-- Lexicographic (code-point) strict order on character lists, as in
Python string comparison. -/
def charsLt : List Char → List Char → Bool
  | [], [] => false
  | [], _ :: _ => true
  | _ :: _, [] => false
  | a :: as, b :: bs =>
    if a.toNat < b.toNat then true
    else if b.toNat < a.toNat then false
    else charsLt as bs

/-- Strict string order on the underlying character lists. -/
def strLtB (x y : String) : Bool := charsLt x.data y.data

/-- Insert into a sorted list of strings. -/
def strInsSorted (x : String) : List String → List String
  | [] => [x]
  | y :: ys => if strLtB y x then y :: strInsSorted x ys else x :: y :: ys

/-- Insertion sort by the string order (Python `sorted` on a set of
distinct strings). -/
def sortStrings (xs : List String) : List String :=
  xs.foldr strInsSorted []

/-- Python `repr` of a list of simple strings, as interpolated by
f-strings such as `f"{sorted(names)[:10]}"`. -/
def pyListRepr (xs : List String) : String :=
  "[" ++ strJoin ", " (xs.map (fun x => apos ++ x ++ apos)) ++ "]"

/-- Whitespace as understood by Python's `shlex` (`shlex.whitespace`,
exactly space, tab, carriage return and newline). -/
def isShlexWS (c : Char) : Bool :=
  c = ' ' || c = Char.ofNat 9 || c = Char.ofNat 13 || c = Char.ofNat 10

/-- Whitespace as understood by Python's `str.split()` with no arguments
(ASCII fragment: space, tab, newline, carriage return, vertical tab,
form feed). -/
def isPySplitWS (c : Char) : Bool :=
  c = ' ' || c = Char.ofNat 9 || c = Char.ofNat 10 || c = Char.ofNat 13 ||
  c = Char.ofNat 11 || c = Char.ofNat 12

/-- Whitespace class of Python's regex `\s` (ASCII fragment). -/
def isReWS (c : Char) : Bool := isPySplitWS c

/-- Word-character class of Python's regex `\w` (ASCII fragment:
letters, digits and underscore; the inputs of interest are ASCII). -/
def isReWordChar (c : Char) : Bool :=
  c.isAlpha || c.isDigit || c = Char.ofNat 95

/-- Python `str.split()` with no arguments: split on runs of whitespace,
discarding empty pieces. -/
def pyStrSplit (s : String) : List String :=
  ((s.data.splitOnP isPySplitWS).filter (fun l => l ≠ [])).map fun l =>
    String.mk l

/-! ## Model of `shlex.split`

`shlex.split(cmd)` tokenizes in POSIX mode with `whitespace_split=True`
and no comment characters: whitespace separates tokens; a single-quoted
region is literal; inside a double-quoted region a backslash escapes only
`"` and `\` (otherwise the backslash is kept); outside quotes a backslash
escapes any single character; an unclosed quote or a trailing backslash
raises `ValueError` (modelled as `none`). -/

/-- Lexer mode: outside quotes, inside single quotes, inside double
quotes, just after a backslash outside quotes, just after a backslash
inside double quotes. -/
inductive ShMode where
  | norm : ShMode
  | insq : ShMode
  | indq : ShMode
  | esc : ShMode
  | dqesc : ShMode
deriving DecidableEq, Repr

/-- Push the pending token (if any) onto the token list. -/
def shEmit (acc : Option (List Char)) (toks : List String) : List String :=
  match acc with
  | none => toks
  | some t => String.mk t :: toks

/-- Core loop of the `shlex.split` model.  `acc = none` means no token
is being built; `acc = some cs` holds the characters collected so far
(a quoted empty token is `some []`). -/
def shGo : List Char → ShMode → Option (List Char) → List String →
    Option (List String)
  | [], ShMode.norm, acc, toks => some (shEmit acc toks).reverse
  | [], _, _, _ => none
  | c :: cs, ShMode.norm, acc, toks =>
    if isShlexWS c then shGo cs ShMode.norm none (shEmit acc toks)
    else if c = sqC then shGo cs ShMode.insq (some (acc.getD [])) toks
    else if c = dqC then shGo cs ShMode.indq (some (acc.getD [])) toks
    else if c = bsC then shGo cs ShMode.esc acc toks
    else shGo cs ShMode.norm (some (acc.getD [] ++ [c])) toks
  | c :: cs, ShMode.esc, acc, toks =>
    shGo cs ShMode.norm (some (acc.getD [] ++ [c])) toks
  | c :: cs, ShMode.insq, acc, toks =>
    if c = sqC then shGo cs ShMode.norm acc toks
    else shGo cs ShMode.insq (some (acc.getD [] ++ [c])) toks
  | c :: cs, ShMode.indq, acc, toks =>
    if c = dqC then shGo cs ShMode.norm acc toks
    else if c = bsC then shGo cs ShMode.dqesc acc toks
    else shGo cs ShMode.indq (some (acc.getD [] ++ [c])) toks
  | c :: cs, ShMode.dqesc, acc, toks =>
    if c = dqC || c = bsC then
      shGo cs ShMode.indq (some (acc.getD [] ++ [c])) toks
    else shGo cs ShMode.indq (some (acc.getD [] ++ [bsC, c])) toks

/-- Model of Python's `shlex.split`; `none` models a raised
`ValueError` (unbalanced quote / dangling escape). -/
def shlexSplit (s : String) : Option (List String) :=
  shGo s.data ShMode.norm none []

example : shlexSplit "rm -rf /" = some ["rm", "-rf", "/"] := by decide
example : shlexSplit "rm -rf ./build" = some ["rm", "-rf", "./build"] := by
  decide
example : shlexSplit "pkill -f systemd" = some ["pkill", "-f", "systemd"] := by
  decide
example : shlexSplit "rm \"a" = none := by decide
example : shlexSplit "pkill node\\ server.js" =
    some ["pkill", "node server.js"] := by decide
example : shlexSplit "rm /\\\n" = some ["rm", "/\n"] := by decide
example : shlexSplit "pkill \\ " = some ["pkill", " "] := by decide
example : shlexSplit "a \"b c\" d" = some ["a", "b c", "d"] := by decide

example : shlexSplit "a\x27\x27b" = some ["ab"] := by decide
example : shlexSplit "\x27\x27" = some [""] := by decide
example : shlexSplit "a\\" = none := by decide
example : shlexSplit "x \"a\\\"b\\n\"" = some ["x", "a\"b\\n"] := by decide
example : shlexSplit "  spaced   out  " = some ["spaced", "out"] := by decide
example : shlexSplit "psql -c\"DROP TABLE x\"" =
    some ["psql", "-cDROP TABLE x"] := by decide

/-! ## Command validators (`security/validator.py`)

Each `validate_*` function below is a direct translation of the
correspondingly named Python function.  A Python `tuple[bool, str]`
return value becomes `Bool × String`; `validate_pkill_command` can also
raise an uncaught `IndexError` (on a whitespace-only target), so its
translation returns `Option (Bool × String)` with `none` for the
escaped exception. -/

/-- The allow-set of dev process names from `validate_pkill_command`
(in source order). -/
def allowed_process_names : List String :=
  ["node", "npm", "npx", "yarn", "pnpm", "bun", "deno", "vite", "next",
   "nuxt", "webpack", "esbuild", "rollup", "tsx", "ts-node",
   "python", "python3", "flask", "uvicorn", "gunicorn", "django",
   "celery", "streamlit", "gradio", "pytest", "mypy", "ruff",
   "cargo", "rustc", "go", "ruby", "rails", "php",
   "postgres", "mysql", "mongod", "redis-server"]

/-- The rejection reason of `validate_pkill_command`:
`f"pkill only allowed for dev processes: {sorted(allowed_process_names)[:10]}..."`. -/
def pkillRejectReason : String :=
  "pkill only allowed for dev processes: " ++
    pyListRepr ((sortStrings allowed_process_names).take 10)
      ++ "..."

/-- Translation of `validate_pkill_command`.  `none` models the
uncaught `IndexError` raised by `target.split()[0]` when the target
contains a space but splits to no words. -/
def validate_pkill_command (command_string : String) :
    Option (Bool × String) :=
  match shlexSplit command_string with
  | none => some (false, "Could not parse pkill command")
  | some [] => some (false, "Empty pkill command")
  | some (_ :: rest) =>
    let args := rest.filter (fun t => !strStarts t "-")
    match args.getLast? with
    | none => some (false, "pkill requires a process name")
    | some target0 =>
      let target? : Option String :=
        if strHasChar target0 ' ' then (pyStrSplit target0).head?
        else some target0
      match target? with
      | none => none
      | some target =>
        if allowed_process_names.contains target then some (true, "")
        else some (false, pkillRejectReason)

/-- Translation of `validate_kill_command`. -/
def validate_kill_command (command_string : String) : Bool × String :=
  match shlexSplit command_string with
  | none => (false, "Could not parse kill command")
  | some toks =>
    if toks.drop 1 |>.any (fun t => t = "-1" || t = "0" || t = "-0") then
      (false, "kill -1 and kill 0 are not allowed (affects all processes)")
    else (true, "")

/-- Translation of `validate_killall_command` (delegates to
`validate_pkill_command`). -/
def validate_killall_command (command_string : String) :
    Option (Bool × String) :=
  validate_pkill_command command_string

/-- The fixed safe chmod modes from `validate_chmod_command`. -/
def chmodSafeModes : List String :=
  ["+x", "a+x", "u+x", "g+x", "o+x", "ug+x", "755", "644", "700", "600",
   "775", "664"]

/-- Python `re.match(r"^[ugoa]*\+x$", mode)`: a run of `u` `g` `o` `a`
characters, then `+x`, then the end of the string (`$` also matches just
before a single trailing newline). -/
def chmodUgoaMatch (mode : String) : Bool :=
  let rest := mode.data.dropWhile fun c =>
    c = 'u' || c = 'g' || c = 'o' || c = 'a'
  rest = ['+', 'x'] || rest = ['+', 'x', Char.ofNat 10]

/-- Whether a chmod mode passes `validate_chmod_command`'s mode check. -/
def chmodModeOk (mode : String) : Bool :=
  chmodSafeModes.contains mode || chmodUgoaMatch mode

/-- Scanner loop of `validate_chmod_command` over `tokens[1:]`,
carrying the mode seen so far and whether a target file was seen. -/
def chmodScan : List String → Option String → Bool → Bool × String
  | [], mode, hasFiles =>
    match mode with
    | none => (false, "chmod requires a mode")
    | some m =>
      if !hasFiles then (false, "chmod requires at least one file")
      else if chmodModeOk m then (true, "")
      else
        (false, "chmod only allowed with executable modes (+x, 755, etc.), got: "
          ++ m)
  | t :: ts, mode, hasFiles =>
    if t = "-R" || t = "--recursive" then chmodScan ts mode hasFiles
    else if strStarts t "-" then
      (false, "chmod flag " ++ apos ++ t ++ apos ++ " is not allowed")
    else
      match mode with
      | none => chmodScan ts (some t) hasFiles
      | some _ => chmodScan ts mode true

/-- Translation of `validate_chmod_command`. -/
def validate_chmod_command (command_string : String) : Bool × String :=
  match shlexSplit command_string with
  | none => (false, "Could not parse chmod command")
  | some [] => (false, "Not a chmod command")
  | some (t0 :: rest) =>
    if t0 ≠ "chmod" then (false, "Not a chmod command")
    else chmodScan rest none false

/-- The exact dangerous targets of `validate_rm_command` whose patterns
are anchored with `^...$` (in source order). -/
def rmExactDanger : List String :=
  ["/", "..", "~", "*", "/*", "/home", "/usr", "/etc", "/var", "/bin",
   "/lib", "/opt"]

/-- Whether an rm target matches one of the `dangerous_patterns`
regexes of `validate_rm_command`.  An `^p$` pattern matches the token
`p` itself or `p` followed by a single trailing newline (Python `$`
semantics); the remaining pattern `^\.\./` matches any token starting
with `../`. -/
def rmDangerousToken (t : String) : Bool :=
  rmExactDanger.any (fun p => t = p || t = p ++ "\n") || strStarts t "../"

/-- Scanner loop of `validate_rm_command` over `tokens[1:]`. -/
def rmScan : List String → Bool × String
  | [] => (true, "")
  | t :: ts =>
    if strStarts t "-" then rmScan ts
    else if rmDangerousToken t then
      (false, "rm target " ++ apos ++ t ++ apos ++ " is not allowed for safety")
    else rmScan ts

/-- Translation of `validate_rm_command`. -/
def validate_rm_command (command_string : String) : Bool × String :=
  match shlexSplit command_string with
  | none => (false, "Could not parse rm command")
  | some [] => (false, "Empty rm command")
  | some (_ :: rest) => rmScan rest

/-- Translation of `validate_init_script`. -/
def validate_init_script (command_string : String) : Bool × String :=
  match shlexSplit command_string with
  | none => (false, "Could not parse init script command")
  | some [] => (false, "Empty command")
  | some (script :: _) =>
    if script = "./init.sh" || strEnds script "/init.sh" then (true, "")
    else (false, "Only ./init.sh is allowed, got: " ++ script)

/-- A secret-scanner match, mirroring the `Match` records produced by
the external `scan_secrets` collaborator. -/
structure SecretMatch where
  file_path : String
  line_number : Nat
  pattern_name : String
  matched_text : String
deriving DecidableEq, Repr

/-- Environment of `validate_git_commit`: availability and results of
the external secret scanner (an external collaborator of the core). -/
structure GitEnv where
  scannerAvailable : Bool
  stagedFiles : List String
  scanResult : List SecretMatch
  maskSecret : String → Nat → String

/-- Group matches by file path, in order of first occurrence
(Python dict insertion order). -/
def gitGroupOne (groups : List (String × List SecretMatch))
    (m : SecretMatch) : List (String × List SecretMatch) :=
  match groups with
  | [] => [(m.file_path, [m])]
  | (k, v) :: rest =>
    if k = m.file_path then (k, v ++ [m]) :: rest
    else (k, v) :: gitGroupOne rest m

/-- The structured multi-line rejection message that
`validate_git_commit` builds when secrets are found. -/
def gitSecretsMessage (env : GitEnv) : String :=
  let groups := env.scanResult.foldl gitGroupOne []
  let fileLines := groups.flatMap fun g =>
    ("File: " ++ g.1) ::
      (g.2.flatMap fun m =>
        ["  Line " ++ toString m.line_number ++ ": " ++ m.pattern_name,
         "    Found: " ++ env.maskSecret m.matched_text 12]) ++ [""]
  let header :=
    ["SECRETS DETECTED - COMMIT BLOCKED", "",
     "The following potential secrets were found in staged files:", ""]
  let footer :=
    ["ACTION REQUIRED:", "",
     "1. Move secrets to environment variables:",
     "   - Add the secret value to .env (create if needed)",
     "   - Update the code to use os.environ.get(" ++ apos ++ "VAR_NAME"
       ++ apos ++ ") or process.env.VAR_NAME",
     "   - Add the variable name (not value) to .env.example", "",
     "2. Example fix:",
     "   BEFORE: api_key = " ++ apos ++ "sk-abc123..." ++ apos,
     "   AFTER:  api_key = os.environ.get(" ++ apos ++ "API_KEY" ++ apos
       ++ ")", "",
     "3. If this is a FALSE POSITIVE (test data, example, mock):",
     "   - Add the file pattern to .secretsignore",
     "   - Example: echo " ++ apos ++ "tests/fixtures/" ++ apos
       ++ " >> .secretsignore", "",
     "After fixing, stage the changes with " ++ apos ++ "git add ."
       ++ apos ++ " and retry the commit."]
  strJoin "\n" (header ++ fileLines ++ footer)

/-- Translation of `validate_git_commit`.  The secret scanner is a
module that may be unavailable; its results are supplied through
`GitEnv`. -/
def validate_git_commit (env : GitEnv) (command_string : String) :
    Bool × String :=
  match shlexSplit command_string with
  | none => (false, "Could not parse git command")
  | some toks =>
    if toks.head? ≠ some "git" then (true, "")
    else if toks.get? 1 ≠ some "commit" then (true, "")
    else if !env.scannerAvailable then (true, "")
    else if env.stagedFiles.isEmpty then (true, "")
    else if env.scanResult.isEmpty then (true, "")
    else (false, gitSecretsMessage env)

/-! ## SQL / database validators

`DESTRUCTIVE_SQL_PATTERNS` is a list of Python regexes searched in
order; each is modelled by a dedicated matcher that returns the text of
`match.group(0)` (leftmost match, greedy quantifiers, `$` also matching
just before a single trailing newline). -/

/-- Consume the literal `p` from the front of `l`. -/
def takeLit : List Char → List Char → Option (List Char)
  | [], l => some l
  | _, [] => none
  | p :: ps, c :: cs => if p = c then takeLit ps cs else none

/-- Length of the leading `\s*` run. -/
def wsCount (l : List Char) : Nat := (l.takeWhile isReWS).length

/-- Length of the leading `\w*` run. -/
def wordCount (l : List Char) : Nat := (l.takeWhile isReWordChar).length

/-- The `\b` word boundary just before a word character: the previous
character (if any) must not be a word character. -/
def boundaryBefore (prev : Option Char) : Bool :=
  match prev with
  | none => true
  | some c => !isReWordChar c

/-- The `\b` word boundary just after a word character: the next
character (if any) must not be a word character. -/
def boundaryAfter (l : List Char) : Bool :=
  match l.head? with
  | none => true
  | some c => !isReWordChar c

/-- Generic leftmost-search driver: try the position matcher `m` at
every position of the text, threading the previous character for `\b`
checks. -/
def reSearchGo (m : Option Char → List Char → Option (List Char)) :
    Option Char → List Char → Option (List Char)
  | prev, l =>
    match m prev l with
    | some g => some g
    | none =>
      match l with
      | [] => none
      | c :: cs => reSearchGo m (some c) cs

/-- The object keywords of the first destructive pattern
`\bDROP\s+(DATABASE|SCHEMA|TABLE|INDEX|VIEW|FUNCTION|PROCEDURE|TRIGGER)\b`
(in source order). -/
def sqlDropKeywords : List String :=
  ["DATABASE", "SCHEMA", "TABLE", "INDEX", "VIEW", "FUNCTION",
   "PROCEDURE", "TRIGGER"]

/-- Position matcher for
`\bDROP\s+(DATABASE|SCHEMA|TABLE|INDEX|VIEW|FUNCTION|PROCEDURE|TRIGGER)\b`. -/
def matchDropObject (prev : Option Char) (l : List Char) :
    Option (List Char) :=
  if !boundaryBefore prev then none
  else
    match takeLit "DROP".data l with
    | none => none
    | some l1 =>
      let k := wsCount l1
      if k = 0 then none
      else
        let l2 := l1.drop k
        match sqlDropKeywords.findSome? (fun kw =>
            match takeLit kw.data l2 with
            | none => none
            | some l3 =>
              if boundaryAfter l3 then some kw.data else none) with
        | none => none
        | some kw => some ("DROP".data ++ l1.take k ++ kw)

/-- Position matcher for `\bTRUNCATE\s+(TABLE\s+)?\w+` (greedy: the
optional `TABLE\s+` group is preferred when it can be followed by a
word character). -/
def matchTruncate (prev : Option Char) (l : List Char) :
    Option (List Char) :=
  if !boundaryBefore prev then none
  else
    match takeLit "TRUNCATE".data l with
    | none => none
    | some l1 =>
      let k := wsCount l1
      if k = 0 then none
      else
        let l2 := l1.drop k
        let withTable : Option (List Char) :=
          match takeLit "TABLE".data l2 with
          | none => none
          | some l3 =>
            let k2 := wsCount l3
            if k2 = 0 then none
            else
              let w := wordCount (l3.drop k2)
              if w = 0 then none
              else some ("TABLE".data ++ l3.take k2 ++ (l3.drop k2).take w)
        match withTable with
        | some mid => some ("TRUNCATE".data ++ l1.take k ++ mid)
        | none =>
          let w := wordCount l2
          if w = 0 then none
          else some ("TRUNCATE".data ++ l1.take k ++ l2.take w)

/-- One candidate of the `\s*(;|$)` tail at a fixed amount `t` of
consumed whitespace: succeed on a following `;`, the end of the string,
or a position just before a single final newline. -/
def delCheck (rest : List Char) (t : Nat) : Option (List Char) :=
  let r := rest.drop t
  if r.head? = some (Char.ofNat 59) then some (rest.take t ++ [Char.ofNat 59])
  else if r = [] || r = [Char.ofNat 10] then some (rest.take t)
  else none

/-- Backtracking tail of `\s*(;|$)`: try consuming `t` whitespace
characters, largest first. -/
def delTail (rest : List Char) : Nat → Option (List Char)
  | 0 => delCheck rest 0
  | t + 1 =>
    match delCheck rest (t + 1) with
    | some g => some g
    | none => delTail rest t

/-- Position matcher for `\bDELETE\s+FROM\s+\w+\s*(;|$)` (a DELETE with
no WHERE clause). -/
def matchDeleteFrom (prev : Option Char) (l : List Char) :
    Option (List Char) :=
  if !boundaryBefore prev then none
  else
    match takeLit "DELETE".data l with
    | none => none
    | some l1 =>
      let k1 := wsCount l1
      if k1 = 0 then none
      else
        match takeLit "FROM".data (l1.drop k1) with
        | none => none
        | some l2 =>
          let k2 := wsCount l2
          if k2 = 0 then none
          else
            let w := wordCount (l2.drop k2)
            if w = 0 then none
            else
              let rest := (l2.drop k2).drop w
              match delTail rest (wsCount rest) with
              | none => none
              | some tail =>
                some ("DELETE".data ++ l1.take k1 ++ "FROM".data ++
                  l2.take k2 ++ (l2.drop k2).take w ++ tail)

/-- Position matcher for `\bDROP\s+ALL\b`. -/
def matchDropAll (prev : Option Char) (l : List Char) :
    Option (List Char) :=
  if !boundaryBefore prev then none
  else
    match takeLit "DROP".data l with
    | none => none
    | some l1 =>
      let k := wsCount l1
      if k = 0 then none
      else
        match takeLit "ALL".data (l1.drop k) with
        | none => none
        | some l2 =>
          if boundaryAfter l2 then
            some ("DROP".data ++ l1.take k ++ "ALL".data)
          else none

/-- Position matcher for `\bDESTROY\b`. -/
def matchDestroy (prev : Option Char) (l : List Char) :
    Option (List Char) :=
  if !boundaryBefore prev then none
  else
    match takeLit "DESTROY".data l with
    | none => none
    | some l1 => if boundaryAfter l1 then some "DESTROY".data else none

/-- Translation of `_contains_destructive_sql`: uppercase the SQL, try
the five `DESTRUCTIVE_SQL_PATTERNS` in order, return the first
`match.group(0)`. -/
def containsDestructiveSql (sql : String) : Bool × String :=
  let u := (strUpper sql).data
  match reSearchGo matchDropObject none u with
  | some g => (true, String.mk g)
  | none =>
    match reSearchGo matchTruncate none u with
    | some g => (true, String.mk g)
    | none =>
      match reSearchGo matchDeleteFrom none u with
      | some g => (true, String.mk g)
      | none =>
        match reSearchGo matchDropAll none u with
        | some g => (true, String.mk g)
        | none =>
          match reSearchGo matchDestroy none u with
          | some g => (true, String.mk g)
          | none => (false, "")

/-- Python `re.search(p ++ "$", s)` for a literal suffix `p`: the
suffix is at the end of the string or just before a final newline. -/
def endsWithDollar (s p : String) : Bool :=
  strEnds s p || strEnds s (p ++ "\n")

/-- Translation of `_is_safe_database_name` (the
`SAFE_DATABASE_PATTERNS` checks on the lowercased name). -/
def is_safe_database_name (db_name : String) : Bool :=
  let l := strLower db_name
  strStarts l "test" || endsWithDollar l "_test" ||
  strStarts l "dev" || endsWithDollar l "_dev" ||
  strStarts l "local" || endsWithDollar l "_local" ||
  strStarts l "tmp" || endsWithDollar l "_tmp" ||
  strStarts l "temp" || endsWithDollar l "_temp" ||
  strStarts l "scratch" || strStarts l "sandbox" ||
  strStarts l "mock" || endsWithDollar l "_mock"

/-- Last non-flag token, skipping the argument of each flag in
`flagsWithArg` (the `skip_next` loops of `validate_dropdb_command` and
`validate_dropuser_command`). -/
def lastNonFlag (flagsWithArg : List String) :
    List String → Option String → Option String
  | [], acc => acc
  | t :: ts, acc =>
    if flagsWithArg.contains t then
      match ts with
      | [] => acc
      | _ :: ts2 => lastNonFlag flagsWithArg ts2 acc
    else if strStarts t "-" then lastNonFlag flagsWithArg ts acc
    else lastNonFlag flagsWithArg ts (some t)

/-- Flags of `dropdb` that take an argument. -/
def dropdbArgFlags : List String :=
  ["-h", "--host", "-p", "--port", "-U", "--username", "-w",
   "--no-password", "-W", "--password", "--maintenance-db"]

/-- Translation of `validate_dropdb_command`. -/
def validate_dropdb_command (command_string : String) : Bool × String :=
  match shlexSplit command_string with
  | none => (false, "Could not parse dropdb command")
  | some [] => (false, "Empty dropdb command")
  | some (_ :: rest) =>
    match lastNonFlag dropdbArgFlags rest none with
    | none => (false, "dropdb requires a database name")
    | some db =>
      if is_safe_database_name db then (true, "")
      else
        (false, "dropdb " ++ apos ++ db ++ apos ++
          " blocked for safety. Only test/dev databases can be dropped autonomously. "
          ++ "Safe patterns: test*, *_test, dev*, *_dev, local*, tmp*, temp*, scratch*, sandbox*, mock*")

/-- Flags of `dropuser` that take an argument. -/
def dropuserArgFlags : List String :=
  ["-h", "--host", "-p", "--port", "-U", "--username", "-w",
   "--no-password", "-W", "--password"]

/-- Translation of the `safe_user_patterns` check of
`validate_dropuser_command`. -/
def isSafeUserName (username : String) : Bool :=
  let l := strLower username
  strStarts l "test" || endsWithDollar l "_test" ||
  strStarts l "dev" || endsWithDollar l "_dev" ||
  strStarts l "tmp" || strStarts l "temp" || strStarts l "mock"

/-- Translation of `validate_dropuser_command`. -/
def validate_dropuser_command (command_string : String) : Bool × String :=
  match shlexSplit command_string with
  | none => (false, "Could not parse dropuser command")
  | some [] => (false, "Empty dropuser command")
  | some (_ :: rest) =>
    match lastNonFlag dropuserArgFlags rest none with
    | none => (false, "dropuser requires a username")
    | some u =>
      if isSafeUserName u then (true, "")
      else
        (false, "dropuser " ++ apos ++ u ++ apos ++
          " blocked for safety. Only test/dev users can be dropped autonomously. "
          ++ "Safe patterns: test*, *_test, dev*, *_dev, tmp*, temp*, mock*")

/-- The `-c` scan of `validate_psql_command`: first token equal to
`-c` (taking the next token) or starting with `-c` (taking its tail). -/
def psqlFindSql : List String → Option String
  | [] => none
  | t :: ts =>
    if t = "-c" then
      match ts with
      | next :: _ => some next
      | [] => some ""
    else if strStarts t "-c" then some (strDrop t 2)
    else psqlFindSql ts

/-- Translation of `validate_psql_command`. -/
def validate_psql_command (command_string : String) : Bool × String :=
  match shlexSplit command_string with
  | none => (false, "Could not parse psql command")
  | some [] => (false, "Empty psql command")
  | some toks =>
    match psqlFindSql toks with
    | none => (true, "")
    | some sql =>
      if sql = "" then (true, "")
      else
        let r := containsDestructiveSql sql
        if r.1 then
          (false, "psql command contains destructive SQL: " ++ apos ++ r.2
            ++ apos ++ ". DROP/TRUNCATE/DELETE operations require manual confirmation.")
        else (true, "")

/-- The `-e` / `--execute` scan of `validate_mysql_command`. -/
def mysqlFindSql : List String → Option String
  | [] => none
  | t :: ts =>
    if t = "-e" then
      match ts with
      | next :: _ => some next
      | [] => some ""
    else if strStarts t "-e" then some (strDrop t 2)
    else if t = "--execute" then
      match ts with
      | next :: _ => some next
      | [] => mysqlFindSql ts
    else mysqlFindSql ts

/-- Translation of `validate_mysql_command` (also registered for
`mariadb`). -/
def validate_mysql_command (command_string : String) : Bool × String :=
  match shlexSplit command_string with
  | none => (false, "Could not parse mysql command")
  | some [] => (false, "Empty mysql command")
  | some toks =>
    match mysqlFindSql toks with
    | none => (true, "")
    | some sql =>
      if sql = "" then (true, "")
      else
        let r := containsDestructiveSql sql
        if r.1 then
          (false, "mysql command contains destructive SQL: " ++ apos ++ r.2
            ++ apos ++ ". DROP/TRUNCATE/DELETE operations require manual confirmation.")
        else (true, "")

/-- The dangerous Redis commands of `validate_redis_cli_command`. -/
def dangerousRedisCommands : List String :=
  ["FLUSHALL", "FLUSHDB", "DEBUG", "SHUTDOWN", "SLAVEOF", "REPLICAOF",
   "CONFIG", "BGSAVE", "BGREWRITEAOF", "CLUSTER"]

/-- First non-flag token of a redis-cli invocation, skipping the
argument of each flag that takes one. -/
def redisFirstCommand : List String → Option String
  | [] => none
  | t :: ts =>
    if ["-h", "-p", "-a", "-n", "--pass", "--user", "-u"].contains t then
      match ts with
      | [] => none
      | _ :: ts2 => redisFirstCommand ts2
    else if strStarts t "-" then redisFirstCommand ts
    else some t

/-- Translation of `validate_redis_cli_command`. -/
def validate_redis_cli_command (command_string : String) : Bool × String :=
  match shlexSplit command_string with
  | none => (false, "Could not parse redis-cli command")
  | some [] => (false, "Empty redis-cli command")
  | some (_ :: rest) =>
    match redisFirstCommand rest with
    | none => (true, "")
    | some c =>
      if dangerousRedisCommands.contains (strUpper c) then
        (false, "redis-cli command " ++ apos ++ strUpper c ++ apos ++
          " is blocked for safety. Destructive Redis operations require manual confirmation.")
      else (true, "")

/-- Match a sequence of literal parts separated by `\s*` at the front
of the text. -/
def partsAt : List String → List Char → Bool
  | [], _ => true
  | p :: ps, l =>
    match takeLit p.data l with
    | none => false
    | some l2 => partsAt ps (l2.drop (wsCount l2))

/-- Search a parts pattern anywhere in the text. -/
def partsSearch (parts : List String) : List Char → Bool
  | [] => partsAt parts []
  | l@(_ :: cs) => partsAt parts l || partsSearch parts cs

/-- The `dangerous_mongo_patterns` of `validate_mongosh_command`: each
entry pairs the Python pattern source (used verbatim in the rejection
message) with its lowercased literal parts, `\s*` separating them. -/
def dangerousMongoPatterns : List (String × List String) :=
  [("\\.dropDatabase\\s*\\(", [".dropdatabase", "("]),
   ("\\.drop\\s*\\(", [".drop", "("]),
   ("\\.deleteMany\\s*\\(\\s*\\\x7b\\s*\\\x7d\\s*\\)",
     [".deletemany", "(", "\x7b", "\x7d", ")"]),
   ("\\.remove\\s*\\(\\s*\\\x7b\\s*\\\x7d\\s*\\)",
     [".remove", "(", "\x7b", "\x7d", ")"]),
   ("db\\.dropAllUsers\\s*\\(", ["db.dropallusers", "("]),
   ("db\\.dropAllRoles\\s*\\(", ["db.dropallroles", "("])]

/-- The `--eval` scan of `validate_mongosh_command`. -/
def mongoFindEval : List String → Option String
  | [] => none
  | t :: ts =>
    if t = "--eval" then
      match ts with
      | next :: _ => some next
      | [] => mongoFindEval ts
    else mongoFindEval ts

/-- Translation of `validate_mongosh_command` (also registered for the
legacy `mongo` shell). -/
def validate_mongosh_command (command_string : String) : Bool × String :=
  match shlexSplit command_string with
  | none => (false, "Could not parse mongosh command")
  | some [] => (false, "Empty mongosh command")
  | some toks =>
    match mongoFindEval toks with
    | none => (true, "")
    | some script =>
      match dangerousMongoPatterns.find? (fun pr =>
          partsSearch pr.2 (strLower script).data) with
      | some pr =>
        (false, "mongosh command contains destructive operation matching "
          ++ apos ++ pr.1 ++ apos ++
          ". Database drop/delete operations require manual confirmation.")
      | none => (true, "")

/-- Translation of `validate_mysqladmin_command`. -/
def validate_mysqladmin_command (command_string : String) : Bool × String :=
  match shlexSplit command_string with
  | none => (false, "Could not parse mysqladmin command")
  | some [] => (false, "Empty mysqladmin command")
  | some (_ :: rest) =>
    match rest.find? (fun t =>
        ["drop", "shutdown", "kill"].contains (strLower t)) with
    | some t =>
      (false, "mysqladmin " ++ apos ++ t ++ apos ++
        " is blocked for safety. Destructive operations require manual confirmation.")
    | none => (true, "")

/-- The command names registered in the `VALIDATORS` map, in source
order. -/
def VALIDATORS_KEYS : List String :=
  ["pkill", "kill", "killall", "chmod", "rm", "init.sh", "git",
   "dropdb", "dropuser", "psql", "mysql", "mariadb", "redis-cli",
   "mongosh", "mongo", "mysqladmin"]

/-! ## Review State Machine

`review/state.py` is exercised by `tests/test_review.py` but its
implementation is not among the provided sources, so the state machine
is modelled from the specification (§4.2, §3 "Review State").  File
contents are byte lists; persistence (`load`/`save`) is orthogonal to
the claims and omitted; the current timestamp is passed explicitly. -/

/-- A spec directory as seen by the review hash: the contents of
`spec.md` and `implementation_plan.json` (`none` = file missing). -/
structure SpecDir where
  specMd : Option (List Nat)
  planJson : Option (List Nat)
deriving DecidableEq, Repr

/-- Modelled from the spec: `_compute_file_hash` — a deterministic
content digest of one file, with a stable empty sentinel for a missing
file.  The MD5 digest is idealised as an injective encoding (the spec
treats the digest as collision-free: "content hash ... to detect
staleness"). -/
def compute_file_hash : Option (List Nat) → List Nat
  | none => []
  | some bs => 1 :: bs

/-- Modelled from the spec: `_compute_spec_hash` — a deterministic
digest combining the `spec.md` and `implementation_plan.json` contents;
missing files contribute the empty sentinel, and the combination of the
two per-file digests is injective (length-prefixed concatenation). -/
def compute_spec_hash (d : SpecDir) : List Nat :=
  let h1 := compute_file_hash d.specMd
  let h2 := compute_file_hash d.planJson
  h1.length :: (h1 ++ h2)

/-- Modelled from the spec: the persisted review state record
(`review_state.json` schema, §6). -/
structure ReviewState where
  approved : Bool
  approved_by : String
  approved_at : String
  feedback : List String
  spec_hash : List Nat
  review_count : Nat
deriving DecidableEq, Repr

/-- The default (unapproved) review state. -/
def ReviewState.default : ReviewState :=
  ⟨false, "", "", [], [], 0⟩

/-- Modelled from the spec: `approve(spec_dir, approved_by)` — sets
`approved`, stores the approver and the current timestamp `now`,
recomputes and stores `spec_hash`, increments `review_count` (auto-save
omitted). -/
def ReviewState.approve (st : ReviewState) (d : SpecDir)
    (who now : String) : ReviewState :=
  { st with
    approved := true
    approved_by := who
    approved_at := now
    spec_hash := compute_spec_hash d
    review_count := st.review_count + 1 }

/-- Modelled from the spec: `reject()` — clears `approved`,
`approved_by`, `approved_at` and `spec_hash`, increments
`review_count`, preserves `feedback`. -/
def ReviewState.reject (st : ReviewState) : ReviewState :=
  { st with
    approved := false
    approved_by := ""
    approved_at := ""
    spec_hash := []
    review_count := st.review_count + 1 }

/-- Modelled from the spec: `invalidate()` — sets `approved := false`,
clears `spec_hash` and `approved_at`, keeps `approved_by` as a
historical record, and does not touch `review_count` or `feedback`. -/
def ReviewState.invalidate (st : ReviewState) : ReviewState :=
  { st with
    approved := false
    approved_at := ""
    spec_hash := [] }

/-- Modelled from the spec: `is_approved()`. -/
def ReviewState.is_approved (st : ReviewState) : Bool := st.approved

/-- Modelled from the spec: `is_approval_valid(spec_dir)` — `approved`
AND (hash empty [legacy] OR hash matches the freshly recomputed
hash). -/
def ReviewState.is_approval_valid (st : ReviewState) (d : SpecDir) : Bool :=
  st.approved && (st.spec_hash.isEmpty || st.spec_hash == compute_spec_hash d)

/-! ## QA recurring-issue detection

`qa/report.py` is exercised by `tests/test_qa_report.py` and called
from `qa/loop.py`, but its implementation is not among the provided
sources; the functions below are modelled from the specification
(§4.5): issues are normalised by stripping diagnostic-prefix words,
lowercasing, and combining with file and line; two issues are the same
when the similarity of their normalised keys exceeds 0.8; an issue
recurs when its occurrence count (current plus historical occurrences)
reaches the threshold (default 3).  The similarity of two keys is the
Ratcliff–Obershelp ratio (`difflib.SequenceMatcher.ratio`):
`2 * M / (len(a) + len(b))`, where `M` is the total size of the
recursively found longest matching blocks. -/

/-- Common prefix length of two character lists. -/
def cpl : List Char → List Char → Nat
  | a :: as_, b :: bs => if a = b then cpl as_ bs + 1 else 0
  | _, _ => 0

/-- Length of the longest common block starting at offsets `i`, `j`. -/
def candK (a b : List Char) (i j : Nat) : Nat := cpl (a.drop i) (b.drop j)

/-- Fold step for the longest-matching-block search: keep the first
block (lowest `i`, then lowest `j`) of maximal length. -/
def bbGo (a b : List Char) : List (Nat × Nat) → Nat × Nat × Nat →
    Nat × Nat × Nat
  | [], acc => acc
  | ij :: rest, acc =>
    if candK a b ij.1 ij.2 > acc.2.2 then
      bbGo a b rest (ij.1, ij.2, candK a b ij.1 ij.2)
    else bbGo a b rest acc

/-- All offset pairs, in lexicographic order. -/
def allOffsetPairs (a b : List Char) : List (Nat × Nat) :=
  (List.range a.length).flatMap fun i =>
    (List.range b.length).map fun j => (i, j)

/-- Longest matching block `(i, j, k)` of two character lists (first
maximal block in `(i, j)` order). -/
def bestBlock (a b : List Char) : Nat × Nat × Nat :=
  bbGo a b (allOffsetPairs a b) (0, 0, candK a b 0 0)

/-- Total matched size of the Ratcliff–Obershelp decomposition, with
explicit fuel.  Every recursive call is on strictly shorter lists, so
fuel `a.length + 1` is always sufficient. -/
def roGo : Nat → List Char → List Char → Nat
  | 0, _, _ => 0
  | fuel + 1, a, b =>
    let ijk := bestBlock a b
    if ijk.2.2 = 0 then 0
    else
      roGo fuel (a.take ijk.1) (b.take ijk.2.1) + ijk.2.2 +
        roGo fuel (a.drop (ijk.1 + ijk.2.2)) (b.drop (ijk.2.1 + ijk.2.2))

/-- Total number of matched characters between two character lists. -/
def roMatches (a b : List Char) : Nat := roGo (a.length + 1) a b

/-- The `SequenceMatcher.ratio`-style similarity score in `ℚ`
(`1` for two empty sequences). -/
def simScore (a b : List Char) : ℚ :=
  if a.length + b.length = 0 then 1
  else (2 * (roMatches a b : ℚ)) / ((a.length : ℚ) + (b.length : ℚ))

/-- A QA issue record (`{title, file?, line?, type?}` plus the free
`description` used by error records; absent fields are empty). -/
structure Issue where
  title : String
  file : String
  line : String
  description : String
deriving DecidableEq, Repr

/-- An issue with only a title. -/
def Issue.titled (t : String) : Issue := ⟨t, "", "", ""⟩

/-- An issue with a title and a file. -/
def Issue.inFile (t f : String) : Issue := ⟨t, f, "", ""⟩

/-- Strip one leading diagnostic prefix and following whitespace. -/
def stripOneLead (p : List Char) (t : List Char) : List Char :=
  if p.isPrefixOf t then (t.drop p.length).dropWhile isPySplitWS else t

/-- Strip the diagnostic prefixes `error:`, `issue:`, `bug:`, `fix:`
from a lowercased title. -/
def stripDiagLead (t : List Char) : List Char :=
  stripOneLead "fix:".data (stripOneLead "bug:".data
    (stripOneLead "issue:".data (stripOneLead "error:".data t)))

/-- Modelled from the spec: `_normalize_issue_key` — lowercase the
title, strip diagnostic-prefix words, and combine with the lowercased
file and the line into `title|file|line`. -/
def normalize_issue_key (i : Issue) : String :=
  String.mk (stripDiagLead (strLower i.title).data) ++ "|" ++
    strLower i.file ++ "|" ++ i.line

/-- Modelled from the spec: `ISSUE_SIMILARITY_THRESHOLD` (0.8). -/
def ISSUE_SIMILARITY_THRESHOLD : ℚ := 4 / 5

/-- Modelled from the spec: `RECURRING_ISSUE_THRESHOLD` (3). -/
def RECURRING_ISSUE_THRESHOLD : Nat := 3

/-- Modelled from the spec: `_issue_similarity` — similarity of the
normalised keys. -/
def issue_similarity (a b : Issue) : ℚ :=
  simScore (normalize_issue_key a).data (normalize_issue_key b).data

/-- Two issues are "the same" when their similarity exceeds the fixed
threshold: `2M/(|ka| + |kb|) > 4/5`, written with cross-multiplied
naturals so that it evaluates (`issuesMatch_eq_sim` below proves this
equal to the `ℚ` comparison against `ISSUE_SIMILARITY_THRESHOLD`). -/
def issuesMatch (a b : Issue) : Bool :=
  let ka := (normalize_issue_key a).data
  let kb := (normalize_issue_key b).data
  let n := ka.length + kb.length
  if n = 0 then true else 5 * (2 * roMatches ka kb) > 4 * n

/-- One entry of `qa_iteration_history`. -/
structure IterationRecord where
  iteration : Nat
  status : String
  issues : List Issue
deriving DecidableEq, Repr

/-- Occurrences of an issue: the current occurrence plus every similar
issue across the history iterations. -/
def occurrenceCount (cur : Issue) (history : List IterationRecord) : Nat :=
  1 + (history.map (fun it => (it.issues.filter (issuesMatch cur)).length)).sum

/-- Modelled from the spec: `has_recurring_issues(current, history,
threshold)` — `(True, entries)` when some current issue reaches the
occurrence-count threshold, each entry carrying its
`occurrence_count`; otherwise `(False, [])`. -/
def has_recurring_issues (current : List Issue)
    (history : List IterationRecord) (threshold : Nat) :
    Bool × List (Issue × Nat) :=
  let recs := current.filterMap fun iss =>
    let c := occurrenceCount iss history
    if threshold ≤ c then some (iss, c) else none
  (!recs.isEmpty, recs)

/-! ## QA validation loop (`qa/loop.py`)

`run_qa_validation_loop` is translated directly; its helpers from the
missing `qa/criteria.py` / `progress` modules (`is_qa_approved`,
`is_build_complete`, `get_qa_iteration_count`, `is_no_test_project`)
are modelled from the specification: `is_qa_approved` holds when
`qa_signoff.status == "approved"`; build completeness and test-framework
presence are abstract facts of the spec/project directories; the
iteration count is the length of `qa_iteration_history`.  The reviewer
and fixer agent sessions are oracles indexed by the iteration number;
a reviewer session also leaves the sign-off's `issues_found` list on
disk.  Logging, console output and the Linear integration (external
collaborators) have no effect on the modelled state and are omitted. -/

/-- The observable QA state of a spec/project directory pair. -/
structure QAPlanState where
  buildComplete : Bool
  signoffStatus : String
  signoffIssues : List Issue
  history : List IterationRecord
  noTestProject : Bool
  manualPlanCreated : Bool
  escalated : Bool
deriving DecidableEq, Repr

/-- Outcome of one reviewer session: the returned `(status, response)`
pair and the `issues_found` list it recorded in the sign-off. -/
structure ReviewerOutcome where
  status : String
  response : String
  issues : List Issue
deriving DecidableEq, Repr

/-- Agent-session oracles for the QA loop, indexed by the iteration
number. -/
structure QALoopEnv where
  reviewer : Nat → ReviewerOutcome
  fixer : Nat → String × String

/-- Mutable run state threaded through the loop: the plan state plus
counters of reviewer/fixer agent sessions started. -/
structure QARunState where
  plan : QAPlanState
  reviewerCalls : Nat
  fixerCalls : Nat
deriving DecidableEq, Repr

/-- `MAX_QA_ITERATIONS` from `qa/loop.py`. -/
def MAX_QA_ITERATIONS : Nat := 50

/-- Modelled from the spec: `record_iteration` — durably append one
iteration record to `qa_iteration_history`. -/
def recordIteration (st : QAPlanState) (n : Nat) (status : String)
    (issues : List Issue) : QAPlanState :=
  { st with history := st.history ++ [⟨n, status, issues⟩] }

/-- One round of the `while qa_iteration < MAX_QA_ITERATIONS` loop of
`run_qa_validation_loop`; `fuel` bounds the recursion and never runs
out before the loop condition fails. -/
def qaLoopGo (env : QALoopEnv) : Nat → Nat → QARunState → Bool × QARunState
  | 0, _, rs => (false, rs)
  | fuel + 1, qaIter0, rs =>
    if qaIter0 < MAX_QA_ITERATIONS then
      let qaIter := qaIter0 + 1
      let out := env.reviewer qaIter
      let rs1 : QARunState :=
        { rs with
          reviewerCalls := rs.reviewerCalls + 1
          plan := { rs.plan with signoffStatus := out.status,
                                 signoffIssues := out.issues } }
      if out.status = "approved" then
        (true, { rs1 with plan := recordIteration rs1.plan qaIter "approved" [] })
      else if out.status = "rejected" then
        let current := rs1.plan.signoffIssues
        let planRec := recordIteration rs1.plan qaIter "rejected" current
        let hr := has_recurring_issues current planRec.history
          RECURRING_ISSUE_THRESHOLD
        if hr.1 then
          (false, { rs1 with plan := { planRec with escalated := true } })
        else if qaIter ≥ MAX_QA_ITERATIONS then
          (false, { rs1 with plan := planRec })
        else
          let fx := env.fixer qaIter
          let rs2 : QARunState :=
            { rs1 with plan := planRec, fixerCalls := rs1.fixerCalls + 1 }
          if fx.1 = "error" then
            (false, { rs2 with plan := (recordIteration rs2.plan qaIter
              "error" [⟨"Fixer error", "", "", fx.2⟩]) })
          else qaLoopGo env fuel qaIter rs2
      else if out.status = "error" then
        qaLoopGo env fuel qaIter
          { rs1 with plan := (recordIteration rs1.plan qaIter "error"
            [⟨"QA error", "", "", out.response⟩]) }
      else qaLoopGo env fuel qaIter rs1
    else (false, rs)

/-- Translation of `run_qa_validation_loop(project_dir, spec_dir,
model)`: verify build completeness, return immediately on an existing
QA approval, create a manual test plan for no-test projects, then run
the bounded reviewer/fixer loop. -/
def run_qa_validation_loop (env : QALoopEnv) (st : QAPlanState) :
    Bool × QARunState :=
  if !st.buildComplete then (false, ⟨st, 0, 0⟩)
  else if st.signoffStatus = "approved" then (true, ⟨st, 0, 0⟩)
  else
    let st1 := if st.noTestProject then { st with manualPlanCreated := true }
      else st
    let qaIter0 := st1.history.length
    qaLoopGo env (MAX_QA_ITERATIONS - qaIter0) qaIter0 ⟨st1, 0, 0⟩

/-! ## Phase executor (`spec/phases.py`)

Each `phase_*` method of `PhaseExecutor` is translated to a function
over an abstract spec-directory state `SpecFS` (which artifacts exist,
plus the fields of artifacts the phases themselves read) and an oracle
environment `PhaseEnv` for external collaborators: agent invocations
and scripts (each mapping the pre-state to success, textual output and
a post-state), the structural spec validator, `auto_fix_plan`, the
knowledge-graph provider, and the content of the placeholder critique
written by the missing `spec/validator.py` helpers.  Output file paths
are modelled by their fixed names inside the spec directory.  Each
phase also reports how many agent/script invocations it performed
(`calls`), which the idempotency claims are about.  Logging and console
output are omitted. -/

/-- The observable spec-directory state used by the phases. -/
structure SpecFS where
  files : List String
  critIssuesFixed : Bool
  critNoIssues : Bool
  reqTask : Option String
deriving DecidableEq, Repr

/-- Add an artifact file. -/
def addFile (fs : SpecFS) (name : String) : SpecFS :=
  if fs.files.contains name then fs else { fs with files := fs.files ++ [name] }

/-- Result record of one structural validation checkpoint
(`validate_spec_document` / `validate_implementation_plan`). -/
structure VRes where
  checkpoint : String
  valid : Bool
  errors : List String
  fixes : List String
deriving DecidableEq, Repr

/-- An agent or script invocation: pre-state to (success, console
output, post-state). -/
def AgentRun := SpecFS → Bool × String × SpecFS

/-- Oracle environment of the phase executor. -/
structure PhaseEnv where
  discoveryScript : Nat → AgentRun
  researchAgent : Nat → AgentRun
  contextScript : Nat → AgentRun
  quickAgent : Nat → AgentRun
  writerAgent : Nat → AgentRun
  criticAgent : Nat → AgentRun
  plannerScriptRun : AgentRun
  plannerAgent : Nat → AgentRun
  valFixerAgent : Nat → AgentRun
  autoFixPlan : SpecFS → Bool × SpecFS
  validateSpecDoc : SpecFS → VRes
  validatePlanDoc : SpecFS → VRes
  validateAll : SpecFS → List VRes
  graphitiOn : Bool
  graphHintsQuery : String → Except String (List String)
  minimalCritFixed : Bool
  minimalCritNoIssues : Bool
  taskDescription : String
  interactiveGather : Option String

/-- `PhaseResult` from `spec/phases.py`. -/
structure PhaseResult where
  phase : String
  success : Bool
  output_files : List String
  errors : List String
  retries : Nat
deriving DecidableEq, Repr

/-- A phase call's effect: the new spec-directory state, the returned
`PhaseResult`, and the number of agent/script invocations made. -/
structure PhaseOut where
  fs : SpecFS
  res : PhaseResult
  calls : Nat
deriving DecidableEq, Repr

/-- `MAX_RETRIES` from `spec/phases.py`. -/
def MAX_RETRIES : Nat := 3

/-- Modelled from the spec: `validator.create_minimal_research` —
write the placeholder `research.json` carrying a `reason`. -/
def createMinimalResearch (fs : SpecFS) : SpecFS := addFile fs "research.json"

/-- Modelled from the spec: `context.create_minimal_context`. -/
def createMinimalContext (fs : SpecFS) : SpecFS := addFile fs "context.json"

/-- Modelled from the spec: `validator.create_empty_hints`. -/
def createEmptyHints (fs : SpecFS) : SpecFS := addFile fs "graph_hints.json"

/-- Modelled from the spec: `writer.create_minimal_plan`. -/
def createMinimalPlan (fs : SpecFS) : SpecFS :=
  addFile fs "implementation_plan.json"

/-- Modelled from the spec: `validator.create_minimal_critique` — the
placeholder critique's `issues_fixed` / `no_issues_found` flags are not
pinned down by the spec and are environment parameters. -/
def createMinimalCritique (env : PhaseEnv) (fs : SpecFS) : SpecFS :=
  { addFile fs "critique_report.json" with
    critIssuesFixed := env.minimalCritFixed
    critNoIssues := env.minimalCritNoIssues }

/-- Modelled from the spec: `requirements.save_requirements` of a
requirements record created with task description `td`. -/
def saveRequirements (fs : SpecFS) (td : String) : SpecFS :=
  { addFile fs "requirements.json" with reqTask := some td }

/-- Retry loop of `phase_discovery` (no artifact-existence skip: the
analyzer script runs on every call). -/
def discoveryGo (env : PhaseEnv) :
    Nat → Nat → Nat → List String → SpecFS → PhaseOut
  | 0, _, calls, errs, fs =>
    ⟨fs, ⟨"discovery", false, [], errs, MAX_RETRIES - 1⟩, calls⟩
  | rem + 1, attempt, calls, errs, fs =>
    let r := env.discoveryScript attempt fs
    if r.1 then
      ⟨r.2.2, ⟨"discovery", true, ["project_index.json"], [], attempt⟩,
        calls + 1⟩
    else
      discoveryGo env rem (attempt + 1) (calls + 1)
        (errs ++ ["Attempt " ++ toString (attempt + 1) ++ ": " ++ r.2.1]) r.2.2

/-- Translation of `phase_discovery`. -/
def phase_discovery (env : PhaseEnv) (fs : SpecFS) : PhaseOut :=
  discoveryGo env MAX_RETRIES 0 0 [] fs

/-- Translation of `phase_historical_context`. -/
def phase_historical_context (env : PhaseEnv) (fs : SpecFS) : PhaseOut :=
  if fs.files.contains "graph_hints.json" then
    ⟨fs, ⟨"historical_context", true, ["graph_hints.json"], [], 0⟩, 0⟩
  else if !env.graphitiOn then
    ⟨createEmptyHints fs,
      ⟨"historical_context", true, ["graph_hints.json"], [], 0⟩, 0⟩
  else
    let q0 := env.taskDescription
    let q := if fs.files.contains "requirements.json" then
        fs.reqTask.getD q0
      else q0
    if q = "" then
      ⟨createEmptyHints fs,
        ⟨"historical_context", true, ["graph_hints.json"], [], 0⟩, 0⟩
    else
      match env.graphHintsQuery q with
      | Except.ok _ =>
        ⟨createEmptyHints fs,
          ⟨"historical_context", true, ["graph_hints.json"], [], 0⟩, 1⟩
      | Except.error e =>
        ⟨createEmptyHints fs,
          ⟨"historical_context", true, ["graph_hints.json"], [e], 0⟩, 1⟩

/-- Translation of `phase_requirements`. -/
def phase_requirements (env : PhaseEnv) (interactive : Bool) (fs : SpecFS) :
    PhaseOut :=
  if fs.files.contains "requirements.json" then
    ⟨fs, ⟨"requirements", true, ["requirements.json"], [], 0⟩, 0⟩
  else if env.taskDescription ≠ "" && !interactive then
    ⟨saveRequirements fs env.taskDescription,
      ⟨"requirements", true, ["requirements.json"], [], 0⟩, 0⟩
  else if interactive then
    match env.interactiveGather with
    | some td =>
      ⟨saveRequirements fs td,
        ⟨"requirements", true, ["requirements.json"], [], 0⟩, 0⟩
    | none => ⟨fs, ⟨"requirements", false, [], ["User cancelled"], 0⟩, 0⟩
  else
    let td := if env.taskDescription = "" then "Unknown task"
      else env.taskDescription
    ⟨saveRequirements fs td,
      ⟨"requirements", true, ["requirements.json"], [], 0⟩, 0⟩

/-- Retry loop of `phase_quick_spec`. -/
def quickSpecGo (env : PhaseEnv) :
    Nat → Nat → Nat → List String → SpecFS → PhaseOut
  | 0, _, calls, errs, fs => ⟨fs, ⟨"quick_spec", false, [], errs, MAX_RETRIES⟩, calls⟩
  | rem + 1, attempt, calls, errs, fs =>
    let r := env.quickAgent attempt fs
    if r.1 && (r.2.2).files.contains "spec.md" then
      let fs2 := if (r.2.2).files.contains "implementation_plan.json" then r.2.2
        else createMinimalPlan r.2.2
      ⟨fs2, ⟨"quick_spec", true, ["spec.md", "implementation_plan.json"], [],
        attempt⟩, calls + 1⟩
    else
      quickSpecGo env rem (attempt + 1) (calls + 1)
        (errs ++ ["Attempt " ++ toString (attempt + 1) ++ ": Quick spec agent failed"])
        r.2.2

/-- Translation of `phase_quick_spec`. -/
def phase_quick_spec (env : PhaseEnv) (fs : SpecFS) : PhaseOut :=
  if fs.files.contains "spec.md" &&
      fs.files.contains "implementation_plan.json" then
    ⟨fs, ⟨"quick_spec", true, ["spec.md", "implementation_plan.json"], [], 0⟩, 0⟩
  else quickSpecGo env MAX_RETRIES 0 0 [] fs

/-- Retry loop of `phase_research`. -/
def researchGo (env : PhaseEnv) :
    Nat → Nat → Nat → List String → SpecFS → PhaseOut
  | 0, _, calls, errs, fs =>
    ⟨createMinimalResearch fs,
      ⟨"research", true, ["research.json"], errs, MAX_RETRIES⟩, calls⟩
  | rem + 1, attempt, calls, errs, fs =>
    let r := env.researchAgent attempt fs
    if r.1 && (r.2.2).files.contains "research.json" then
      ⟨r.2.2, ⟨"research", true, ["research.json"], [], attempt⟩, calls + 1⟩
    else if r.1 then
      ⟨createMinimalResearch r.2.2,
        ⟨"research", true, ["research.json"], [], attempt⟩, calls + 1⟩
    else
      researchGo env rem (attempt + 1) (calls + 1)
        (errs ++ ["Attempt " ++ toString (attempt + 1) ++ ": Research agent failed"])
        r.2.2

/-- Translation of `phase_research`. -/
def phase_research (env : PhaseEnv) (fs : SpecFS) : PhaseOut :=
  if fs.files.contains "research.json" then
    ⟨fs, ⟨"research", true, ["research.json"], [], 0⟩, 0⟩
  else if !fs.files.contains "requirements.json" then
    ⟨createMinimalResearch fs, ⟨"research", true, ["research.json"], [], 0⟩, 0⟩
  else researchGo env MAX_RETRIES 0 0 [] fs

/-- Retry loop of `phase_context`. -/
def contextGo (env : PhaseEnv) :
    Nat → Nat → Nat → List String → SpecFS → PhaseOut
  | 0, _, calls, errs, fs =>
    ⟨createMinimalContext fs,
      ⟨"context", true, ["context.json"], errs, MAX_RETRIES⟩, calls⟩
  | rem + 1, attempt, calls, errs, fs =>
    let r := env.contextScript attempt fs
    if r.1 then
      ⟨r.2.2, ⟨"context", true, ["context.json"], [], attempt⟩, calls + 1⟩
    else
      contextGo env rem (attempt + 1) (calls + 1)
        (errs ++ ["Attempt " ++ toString (attempt + 1) ++ ": " ++ r.2.1]) r.2.2

/-- Translation of `phase_context`. -/
def phase_context (env : PhaseEnv) (fs : SpecFS) : PhaseOut :=
  if fs.files.contains "context.json" then
    ⟨fs, ⟨"context", true, ["context.json"], [], 0⟩, 0⟩
  else contextGo env MAX_RETRIES 0 0 [] fs

/-- Retry loop of `phase_spec_writing`. -/
def specWritingGo (env : PhaseEnv) :
    Nat → Nat → Nat → List String → SpecFS → PhaseOut
  | 0, _, calls, errs, fs =>
    ⟨fs, ⟨"spec_writing", false, [], errs, MAX_RETRIES⟩, calls⟩
  | rem + 1, attempt, calls, errs, fs =>
    let r := env.writerAgent attempt fs
    if r.1 && (r.2.2).files.contains "spec.md" then
      let v := env.validateSpecDoc r.2.2
      if v.valid then
        ⟨r.2.2, ⟨"spec_writing", true, ["spec.md"], [], attempt⟩, calls + 1⟩
      else
        specWritingGo env rem (attempt + 1) (calls + 1)
          (errs ++ ["Attempt " ++ toString (attempt + 1) ++ ": Spec invalid - "
            ++ pyListRepr v.errors]) r.2.2
    else
      specWritingGo env rem (attempt + 1) (calls + 1)
        (errs ++ ["Attempt " ++ toString (attempt + 1) ++
          ": Agent did not create spec.md"]) r.2.2

/-- Translation of `phase_spec_writing`. -/
def phase_spec_writing (env : PhaseEnv) (fs : SpecFS) : PhaseOut :=
  if fs.files.contains "spec.md" && (env.validateSpecDoc fs).valid then
    ⟨fs, ⟨"spec_writing", true, ["spec.md"], [], 0⟩, 0⟩
  else specWritingGo env MAX_RETRIES 0 0 [] fs

/-- Retry loop of `phase_self_critique`. -/
def critiqueGo (env : PhaseEnv) :
    Nat → Nat → Nat → List String → SpecFS → PhaseOut
  | 0, _, calls, errs, fs =>
    ⟨createMinimalCritique env fs,
      ⟨"self_critique", true, ["critique_report.json"], errs, MAX_RETRIES⟩,
      calls⟩
  | rem + 1, attempt, calls, errs, fs =>
    let r := env.criticAgent attempt fs
    if r.1 then
      let fs2 := if (r.2.2).files.contains "critique_report.json" then r.2.2
        else createMinimalCritique env r.2.2
      if (env.validateSpecDoc fs2).valid then
        ⟨fs2, ⟨"self_critique", true, ["critique_report.json"], [], attempt⟩,
          calls + 1⟩
      else
        critiqueGo env rem (attempt + 1) (calls + 1)
          (errs ++ ["Attempt " ++ toString (attempt + 1) ++
            ": Spec still invalid after critique"]) fs2
    else
      critiqueGo env rem (attempt + 1) (calls + 1)
        (errs ++ ["Attempt " ++ toString (attempt + 1) ++
          ": Critique agent failed"]) r.2.2

/-- Translation of `phase_self_critique`. -/
def phase_self_critique (env : PhaseEnv) (fs : SpecFS) : PhaseOut :=
  if !fs.files.contains "spec.md" then
    ⟨fs, ⟨"self_critique", false, [], ["spec.md does not exist"], 0⟩, 0⟩
  else if fs.files.contains "critique_report.json" &&
      (fs.critIssuesFixed || fs.critNoIssues) then
    ⟨fs, ⟨"self_critique", true, ["critique_report.json"], [], 0⟩, 0⟩
  else critiqueGo env MAX_RETRIES 0 0 [] fs

/-- Agent-fallback loop of `phase_planning`. -/
def planningAgentGo (env : PhaseEnv) :
    Nat → Nat → Nat → List String → SpecFS → PhaseOut
  | 0, _, calls, errs, fs =>
    ⟨fs, ⟨"planning", false, [], errs, MAX_RETRIES⟩, calls⟩
  | rem + 1, attempt, calls, errs, fs =>
    let r := env.plannerAgent attempt fs
    if r.1 && (r.2.2).files.contains "implementation_plan.json" then
      let v := env.validatePlanDoc r.2.2
      if v.valid then
        ⟨r.2.2, ⟨"planning", true, ["implementation_plan.json"], [], attempt⟩,
          calls + 1⟩
      else
        let fx := env.autoFixPlan r.2.2
        let v2 := env.validatePlanDoc fx.2
        if fx.1 && v2.valid then
          ⟨fx.2, ⟨"planning", true, ["implementation_plan.json"], [], attempt⟩,
            calls + 1⟩
        else
          planningAgentGo env rem (attempt + 1) (calls + 1)
            (errs ++ ["Agent attempt " ++ toString (attempt + 1) ++ ": " ++
              pyListRepr (if fx.1 then v2.errors else v.errors)]) fx.2
    else
      planningAgentGo env rem (attempt + 1) (calls + 1)
        (errs ++ ["Agent attempt " ++ toString (attempt + 1) ++
          ": Did not create plan file"]) r.2.2

/-- Translation of `phase_planning`: skip on an existing valid plan,
try the deterministic planner script (with an auto-fix pass), then fall
back to the planner agent. -/
def phase_planning (env : PhaseEnv) (fs : SpecFS) : PhaseOut :=
  if fs.files.contains "implementation_plan.json" &&
      (env.validatePlanDoc fs).valid then
    ⟨fs, ⟨"planning", true, ["implementation_plan.json"], [], 0⟩, 0⟩
  else
    let r := env.plannerScriptRun fs
    let fs1 := r.2.2
    if r.1 && fs1.files.contains "implementation_plan.json" then
      let v := env.validatePlanDoc fs1
      if v.valid then
        ⟨fs1, ⟨"planning", true, ["implementation_plan.json"], [], 0⟩, 1⟩
      else
        let fx := env.autoFixPlan fs1
        let v2 := env.validatePlanDoc fx.2
        if fx.1 && v2.valid then
          ⟨fx.2, ⟨"planning", true, ["implementation_plan.json"], [], 0⟩, 1⟩
        else
          planningAgentGo env MAX_RETRIES 0 1
            ["Script output invalid: " ++
              pyListRepr (if fx.1 then v2.errors else v.errors)] fx.2
    else planningAgentGo env MAX_RETRIES 0 1 [] fs1

/-- Flattened error list of a failed validation pass. -/
def valErrors (results : List VRes) : List String :=
  results.flatMap fun r => r.errors.map fun e => r.checkpoint ++ ": " ++ e

/-- Retry loop of `phase_validation`: validate everything; when a
checkpoint fails and retries remain, run the validation-fixer agent and
revalidate. -/
def validationGo (env : PhaseEnv) :
    Nat → Nat → Nat → SpecFS → PhaseOut
  | 0, _, calls, fs =>
    ⟨fs, ⟨"validation", false, [], valErrors (env.validateAll fs),
      MAX_RETRIES⟩, calls⟩
  | rem + 1, attempt, calls, fs =>
    let results := env.validateAll fs
    if results.all (fun r => r.valid) then
      ⟨fs, ⟨"validation", true, [], [], attempt⟩, calls⟩
    else if rem = 0 then
      ⟨fs, ⟨"validation", false, [], valErrors results, MAX_RETRIES⟩, calls⟩
    else
      let r := env.valFixerAgent attempt fs
      validationGo env rem (attempt + 1) (calls + 1) r.2.2

/-- Translation of `phase_validation`. -/
def phase_validation (env : PhaseEnv) (fs : SpecFS) : PhaseOut :=
  validationGo env MAX_RETRIES 0 0 fs

/-- A phase call is idempotent at `fs` when running it a second time
makes no agent/script invocation and succeeds with zero retries and
the identical output file set. -/
def idempotentAfter (run : SpecFS → PhaseOut) (fs : SpecFS) : Prop :=
  (run (run fs).fs).calls = 0 ∧
  (run (run fs).fs).res.retries = 0 ∧
  (run (run fs).fs).res.success = true ∧
  (run (run fs).fs).res.output_files = (run fs).res.output_files

/-- A concrete phase-oracle environment (deterministic scripts and
agents, validators keyed on artifact presence) used to instantiate the
phase claims. -/
def phaseEnvA : PhaseEnv :=
  { discoveryScript := fun _ fs => (true, "ok", addFile fs "project_index.json")
    researchAgent := fun _ fs => (false, "", fs)
    contextScript := fun _ fs => (true, "", addFile fs "context.json")
    quickAgent := fun _ fs => (false, "", fs)
    writerAgent := fun _ fs => (true, "", addFile fs "spec.md")
    criticAgent := fun _ fs => (false, "", fs)
    plannerScriptRun := fun fs =>
      (true, "", addFile fs "implementation_plan.json")
    plannerAgent := fun _ fs => (false, "", fs)
    valFixerAgent := fun _ fs => (false, "", fs)
    autoFixPlan := fun fs => (false, fs)
    validateSpecDoc := fun fs => ⟨"spec", fs.files.contains "spec.md", [], []⟩
    validatePlanDoc := fun fs =>
      ⟨"plan", fs.files.contains "implementation_plan.json", [], []⟩
    validateAll := fun fs => [⟨"spec", fs.files.contains "spec.md", [], []⟩]
    graphitiOn := false
    graphHintsQuery := fun _ => Except.error "no graph"
    minimalCritFixed := false
    minimalCritNoIssues := true
    taskDescription := "Add a widget"
    interactiveGather := none }

/-- The empty spec directory. -/
def fs0A : SpecFS := ⟨[], false, false, none⟩

/-- The effective pkill target, as the code computes it: the last
non-flag token, or its first whitespace-separated word when that token
contains a space; `none` when the split of a whitespace-only token has
no first word (the `IndexError` case). -/
def pkillEffectiveTarget (tgt : String) : Option String :=
  if strHasChar tgt ' ' then (pyStrSplit tgt).head? else some tgt

/-! ## Theorems -/

/-- The per-file digest is injective. -/
theorem compute_file_hash_inj (x y : Option (List Nat))
    (h : compute_file_hash x = compute_file_hash y) : x = y := by
  cases x <;> cases y <;> simp [compute_file_hash] at h ⊢ <;> exact h

/-- The combined digest is never the empty (legacy) hash. -/
theorem compute_spec_hash_ne_nil (d : SpecDir) : compute_spec_hash d ≠ [] := by
  simp [compute_spec_hash]

/-- The combined digest is injective: equal hashes mean equal file
contents. -/
theorem compute_spec_hash_inj (d d' : SpecDir)
    (h : compute_spec_hash d = compute_spec_hash d') : d = d' := by
  unfold compute_spec_hash at h
  obtain ⟨hlen, happ⟩ := List.cons.injEq _ _ _ _ ▸ h
  obtain ⟨h1, h2⟩ := List.append_inj happ hlen
  cases d
  cases d'
  simp only [SpecDir.mk.injEq]
  exact ⟨compute_file_hash_inj _ _ h1, compute_file_hash_inj _ _ h2⟩

/-- C1: for every spec directory containing `spec.md` and
`implementation_plan.json`, `approve` followed by `is_approval_valid`
with no intervening change returns `true`; after any byte-level
mutation of either file the approval is invalid until `approve` is
called again; and `is_approval_valid` is exactly `approved` AND (hash
empty [legacy] OR hash equals the freshly recomputed hash). -/
theorem C1_approve_hash_staleness (st : ReviewState) (d : SpecDir)
    (who now : String) (a b : List Nat)
    (_hs : d.specMd = some a) (_hp : d.planJson = some b) :
    (st.approve d who now).is_approval_valid d = true ∧
    (∀ d' : SpecDir, d'.specMd ≠ d.specMd ∨ d'.planJson ≠ d.planJson →
      (st.approve d who now).is_approval_valid d' = false ∧
      ∀ who2 now2 : String,
        ((st.approve d who now).approve d' who2 now2).is_approval_valid d'
          = true) ∧
    (∀ st2 : ReviewState, st2.is_approval_valid d =
      (st2.approved && (st2.spec_hash.isEmpty ||
        st2.spec_hash == compute_spec_hash d))) := by
  refine ⟨?_, ?_, fun st2 => rfl⟩
  · simp [ReviewState.approve, ReviewState.is_approval_valid]
  · intro d' hne
    constructor
    · have hdd : d ≠ d' := by
        intro h
        subst h
        rcases hne with h | h <;> exact h rfl
      have hh : compute_spec_hash d ≠ compute_spec_hash d' :=
        fun h => hdd (compute_spec_hash_inj d d' h)
      simp [ReviewState.approve, ReviewState.is_approval_valid,
        List.isEmpty_eq_true, compute_spec_hash_ne_nil d, hh]
    · intro who2 now2
      simp [ReviewState.approve, ReviewState.is_approval_valid]

/-- Witness for C1 at a concrete state, directory and mutation. -/
theorem C1_approve_hash_staleness_witness :
    (ReviewState.default.approve ⟨some [7], some [8]⟩ "alice" "t1"
      ).is_approval_valid ⟨some [7], some [8]⟩ = true ∧
    (ReviewState.default.approve ⟨some [7], some [8]⟩ "alice" "t1"
      ).is_approval_valid ⟨some [7, 9], some [8]⟩ = false ∧
    ((ReviewState.default.approve ⟨some [7], some [8]⟩ "alice" "t1"
      ).approve ⟨some [7, 9], some [8]⟩ "alice" "t2"
      ).is_approval_valid ⟨some [7, 9], some [8]⟩ = true := by
  have h := C1_approve_hash_staleness ReviewState.default
    ⟨some [7], some [8]⟩ "alice" "t1" [7] [8] rfl rfl
  have h2 := h.2.1 ⟨some [7, 9], some [8]⟩ (Or.inl (by decide))
  exact ⟨h.1, h2.1, h2.2 "alice" "t2"⟩

/-- C5: `reject` clears approval, approver, timestamp and hash and
increments `review_count`; `invalidate` clears approval, hash and
timestamp but preserves `approved_by` and does not change
`review_count`; neither clears `feedback`; `approve` increments
`review_count`. -/
theorem C5_reject_invalidate_frame (st : ReviewState) (d : SpecDir)
    (who now : String) :
    st.reject.approved = false ∧
    st.reject.approved_by = "" ∧
    st.reject.approved_at = "" ∧
    st.reject.spec_hash = [] ∧
    st.reject.review_count = st.review_count + 1 ∧
    st.reject.feedback = st.feedback ∧
    st.invalidate.approved = false ∧
    st.invalidate.spec_hash = [] ∧
    st.invalidate.approved_at = "" ∧
    st.invalidate.approved_by = st.approved_by ∧
    st.invalidate.feedback = st.feedback ∧
    st.invalidate.review_count = st.review_count ∧
    (st.approve d who now).review_count = st.review_count + 1 ∧
    (st.approve d who now).feedback = st.feedback := by
  exact ⟨rfl, rfl, rfl, rfl, rfl, rfl, rfl, rfl, rfl, rfl, rfl, rfl, rfl, rfl⟩

/-- A list's common prefix with itself is the whole list. -/
theorem cpl_self (a : List Char) : cpl a a = a.length := by
  induction a with
  | nil => rfl
  | cons c cs ih => simp [cpl, ih]

/-- The common prefix is no longer than the first list. -/
theorem cpl_le_left (a b : List Char) : cpl a b ≤ a.length := by
  induction a generalizing b with
  | nil => cases b <;> simp [cpl]
  | cons c cs ih =>
    cases b with
    | nil => simp [cpl]
    | cons d ds =>
      by_cases h : c = d
      · have := ih ds
        simp only [cpl, if_pos h, List.length_cons]
        omega
      · simp only [cpl, if_neg h]
        exact Nat.zero_le _

/-- Every candidate block length is bounded by the first list's
length. -/
theorem candK_le_left (a b : List Char) (i j : Nat) :
    candK a b i j ≤ a.length := by
  unfold candK
  refine le_trans (cpl_le_left _ _) ?_
  rw [List.length_drop]
  omega

/-- The best-block fold keeps an accumulator that already dominates
every candidate. -/
theorem bbGo_const (a b : List Char) (l : List (Nat × Nat))
    (acc : Nat × Nat × Nat) (h : ∀ i j, candK a b i j ≤ acc.2.2) :
    bbGo a b l acc = acc := by
  induction l with
  | nil => rfl
  | cons ij rest ih =>
    have : ¬ candK a b ij.1 ij.2 > acc.2.2 := not_lt.mpr (h ij.1 ij.2)
    simp [bbGo, this, ih]

/-- Against itself, the best block is the whole list at offset
`(0, 0)`. -/
theorem bestBlock_self (a : List Char) : bestBlock a a = (0, 0, a.length) := by
  unfold bestBlock
  have h0 : candK a a 0 0 = a.length := by simp [candK, cpl_self]
  rw [h0]
  exact bbGo_const a a _ _ (fun i j => by
    simpa using candK_le_left a a i j)

/-- The matcher yields nothing on empty lists, for any fuel. -/
theorem roGo_nil (f : Nat) : roGo f [] [] = 0 := by
  cases f with
  | zero => rfl
  | succ f => simp [roGo, bestBlock, allOffsetPairs, bbGo, candK, cpl]

/-- A list matches itself completely. -/
theorem roMatches_self (a : List Char) : roMatches a a = a.length := by
  unfold roMatches
  rw [show a.length + 1 = Nat.succ a.length from rfl]
  simp only [roGo, bestBlock_self]
  by_cases h : a.length = 0
  · simp [h]
  · simp only [h, if_false, List.take_zero, Nat.zero_add, List.drop_length,
      roGo_nil]
    omega

/-- Every issue matches itself (self-similarity is `1 > 0.8`). -/
theorem issuesMatch_self (x : Issue) : issuesMatch x x = true := by
  unfold issuesMatch
  simp only [roMatches_self]
  by_cases h : (normalize_issue_key x).data.length = 0
  · simp [h]
  · have hn : (normalize_issue_key x).data.length +
        (normalize_issue_key x).data.length ≠ 0 := by omega
    simp only [hn, if_false]
    rw [decide_eq_true_iff]
    omega

/-- Cross-multiplied form of "similarity exceeds 0.8" for non-empty
key material. -/
theorem simScore_gt_iff (ka kb : List Char)
    (h : ¬ ka.length + kb.length = 0) :
    (4 * (ka.length + kb.length) < 5 * (2 * roMatches ka kb)) ↔
      simScore ka kb > 4 / 5 := by
  unfold simScore
  rw [if_neg h]
  have hpos : (0 : ℚ) < (ka.length : ℚ) + (kb.length : ℚ) := by
    have : 0 < ka.length + kb.length := Nat.pos_of_ne_zero h
    exact_mod_cast this
  rw [gt_iff_lt, div_lt_div_iff₀ (by norm_num : (0 : ℚ) < 5) hpos]
  constructor
  · intro hlt
    have hq : ((4 * (ka.length + kb.length) : ℕ) : ℚ) <
        ((5 * (2 * roMatches ka kb) : ℕ) : ℚ) := by exact_mod_cast hlt
    push_cast at hq
    linarith
  · intro hlt
    have hq : ((4 : ℚ)) * ((ka.length : ℚ) + (kb.length : ℚ)) <
        (5 : ℚ) * (2 * (roMatches ka kb : ℚ)) := by linarith
    have hq2 : ((4 * (ka.length + kb.length) : ℕ) : ℚ) <
        ((5 * (2 * roMatches ka kb) : ℕ) : ℚ) := by push_cast; linarith
    exact_mod_cast hq2

/-- The modelled match test agrees with the specification's rational
similarity comparison against `ISSUE_SIMILARITY_THRESHOLD`. -/
theorem issuesMatch_eq_sim (a b : Issue) :
    issuesMatch a b =
      decide (issue_similarity a b > ISSUE_SIMILARITY_THRESHOLD) := by
  unfold issuesMatch issue_similarity ISSUE_SIMILARITY_THRESHOLD
  by_cases h : (normalize_issue_key a).data.length +
      (normalize_issue_key b).data.length = 0
  · rw [if_pos h]
    have h1 : simScore (normalize_issue_key a).data
        (normalize_issue_key b).data = 1 := by unfold simScore; rw [if_pos h]
    rw [h1]
    norm_num
  · rw [if_neg h, decide_eq_decide]
    exact simScore_gt_iff _ _ h

/-- Occurrence count over `n` identical history iterations. -/
theorem occurrenceCount_replicate (x : Issue) (m : Nat) (s : String)
    (n : Nat) :
    occurrenceCount x (List.replicate n ⟨m, s, [x]⟩) = 1 + n := by
  unfold occurrenceCount
  simp [List.map_replicate, List.filter, issuesMatch_self, List.sum_replicate]

/-- C2 (amended): with one current issue `X` and a history of `n`
iterations each containing `X`, `has_recurring_issues` returns
`(True, [(X, 1 + n)])` exactly when `1 + n` (the current plus prior
occurrences) reaches the threshold, and `(False, [])` otherwise; so at
the default threshold 3 it is `(False, [])` with `threshold - 2 = 1`
prior occurrence and flips to `(True, ...)` with
`occurrence_count = threshold = 3` at `threshold - 1 = 2` prior
occurrences. -/
theorem C2_recurrence_threshold_amended (x : Issue) (m : Nat) (s : String)
    (t n : Nat) :
    has_recurring_issues [x] (List.replicate n ⟨m, s, [x]⟩) t =
      if t ≤ 1 + n then (true, [(x, 1 + n)]) else (false, []) := by
  unfold has_recurring_issues
  simp only [List.filterMap, occurrenceCount_replicate]
  by_cases h : t ≤ 1 + n <;> simp [h]

set_option maxRecDepth 8000 in
/-- C2 counterexample: at the default threshold 3, one current issue
`X` with `threshold - 1 = 2` prior iterations containing `X` already
yields `(True, ...)` with `occurrence_count = 3` — not `(False, [])`
as the claim's general clause states. -/
theorem C2_counterexample :
    has_recurring_issues [Issue.inFile "Same error" "app.py"]
      [⟨1, "rejected", [Issue.inFile "Same error" "app.py"]⟩,
       ⟨2, "rejected", [Issue.inFile "Same error" "app.py"]⟩]
      RECURRING_ISSUE_THRESHOLD
      = (true, [(Issue.inFile "Same error" "app.py", 3)]) := by decide

/-- C6: every validator registered in the `VALIDATORS` map rejects a
command string whose shell tokenization fails, returning `(False,
parse-error reason)` — fail closed, never fail open. -/
theorem C6_parse_failure_fail_closed (s : String)
    (hs : shlexSplit s = none) :
    validate_pkill_command s = some (false, "Could not parse pkill command") ∧
    validate_kill_command s = (false, "Could not parse kill command") ∧
    validate_killall_command s =
      some (false, "Could not parse pkill command") ∧
    validate_chmod_command s = (false, "Could not parse chmod command") ∧
    validate_rm_command s = (false, "Could not parse rm command") ∧
    validate_init_script s = (false, "Could not parse init script command") ∧
    (∀ env : GitEnv,
      validate_git_commit env s = (false, "Could not parse git command")) ∧
    validate_dropdb_command s = (false, "Could not parse dropdb command") ∧
    validate_dropuser_command s =
      (false, "Could not parse dropuser command") ∧
    validate_psql_command s = (false, "Could not parse psql command") ∧
    validate_mysql_command s = (false, "Could not parse mysql command") ∧
    validate_redis_cli_command s =
      (false, "Could not parse redis-cli command") ∧
    validate_mongosh_command s = (false, "Could not parse mongosh command") ∧
    validate_mysqladmin_command s =
      (false, "Could not parse mysqladmin command") := by
  refine ⟨?_, ?_, ?_, ?_, ?_, ?_, fun env => ?_, ?_, ?_, ?_, ?_, ?_, ?_, ?_⟩ <;>
    simp [validate_pkill_command, validate_kill_command,
      validate_killall_command, validate_chmod_command, validate_rm_command,
      validate_init_script, validate_git_commit, validate_dropdb_command,
      validate_dropuser_command, validate_psql_command,
      validate_mysql_command, validate_redis_cli_command,
      validate_mongosh_command, validate_mysqladmin_command, hs]

/-- Witness for C6 at the unparsable string `rm "a` (unclosed quote). -/
theorem C6_parse_failure_witness :
    shlexSplit "rm \"a" = none ∧
    validate_rm_command "rm \"a" = (false, "Could not parse rm command") :=
  ⟨by decide, (C6_parse_failure_fail_closed "rm \"a" (by decide)).2.2.2.2.1⟩

/-- The `-c` scan finds nothing when no token starts with `-c`. -/
theorem psqlFindSql_none (toks : List String)
    (h : ∀ t ∈ toks, ¬ strStarts t "-c") : psqlFindSql toks = none := by
  induction toks with
  | nil => rfl
  | cons t ts ih =>
    have h1 : ¬ strStarts t "-c" := h t (List.mem_cons_self t ts)
    have h2 : t ≠ "-c" := by
      intro he
      exact h1 (by rw [he]; decide)
    simp only [psqlFindSql, if_neg h2, if_neg h1]
    exact ih fun u hu => h u (List.mem_cons_of_mem t hu)

/-- The `-e`/`--execute` scan finds nothing when no token starts with
`-e` or equals `--execute`. -/
theorem mysqlFindSql_none (toks : List String)
    (h : ∀ t ∈ toks, ¬ strStarts t "-e" ∧ t ≠ "--execute") :
    mysqlFindSql toks = none := by
  induction toks with
  | nil => rfl
  | cons t ts ih =>
    obtain ⟨h1, h3⟩ := h t (List.mem_cons_self t ts)
    have h2 : t ≠ "-e" := by
      intro he
      exact h1 (by rw [he]; decide)
    simp only [mysqlFindSql, if_neg h2, if_neg h1, if_neg h3]
    exact ih fun u hu => h u (List.mem_cons_of_mem t hu)

/-- C10: the psql/mysql validators inspect only inline SQL passed via
`-c` (psql) or `-e`/`--execute` (mysql); every parseable, non-empty
command carrying no such flag is allowed with `(True, "")` — so SQL
reaching the database via a script file, stdin redirection or an
interactive session is never rejected by them. -/
theorem C10_inline_sql_only (s : String) (toks : List String)
    (h : shlexSplit s = some toks) (hne : toks ≠ []) :
    ((∀ t ∈ toks, ¬ strStarts t "-c") →
      validate_psql_command s = (true, "")) ∧
    ((∀ t ∈ toks, ¬ strStarts t "-e" ∧ t ≠ "--execute") →
      validate_mysql_command s = (true, "")) := by
  constructor
  · intro hf
    have hn := psqlFindSql_none _ hf
    cases toks with
    | nil => exact absurd rfl hne
    | cons t ts =>
      simp [validate_psql_command, h, hn]
  · intro hf
    have hn := mysqlFindSql_none _ hf
    cases toks with
    | nil => exact absurd rfl hne
    | cons t ts =>
      simp [validate_mysql_command, h, hn]

/-- Witness for C10: a psql invocation that runs a script file, and a
mysql invocation fed by stdin redirection, are both allowed. -/
theorem C10_inline_sql_only_witness :
    validate_psql_command "psql -f drop_everything.sql" = (true, "") ∧
    validate_mysql_command "mysql production_db" = (true, "") :=
  ⟨(C10_inline_sql_only "psql -f drop_everything.sql"
      ["psql", "-f", "drop_everything.sql"] (by decide) (by decide)).1
      (by decide),
   (C10_inline_sql_only "mysql production_db" ["mysql", "production_db"]
      (by decide) (by decide)).2 (by decide)⟩

/-- The modelled `dangerous_patterns` check, characterised: an exact
dangerous path, an exact dangerous path with one trailing newline
(Python `$`), or a `../`-prefixed path. -/
theorem rmDangerousToken_iff (t : String) :
    rmDangerousToken t = true ↔
      (t ∈ rmExactDanger ∨ (∃ p ∈ rmExactDanger, t = p ++ "\n") ∨
        strStarts t "../" = true) := by
  unfold rmDangerousToken
  simp only [Bool.or_eq_true, List.any_eq_true, Bool.or_eq_true,
    decide_eq_true_eq]
  constructor
  · rintro (⟨p, hp, h | h⟩ | h)
    · exact Or.inl (h ▸ hp)
    · exact Or.inr (Or.inl ⟨p, hp, h⟩)
    · exact Or.inr (Or.inr h)
  · rintro (h | ⟨p, hp, h⟩ | h)
    · exact Or.inl ⟨t, h, Or.inl rfl⟩
    · exact Or.inl ⟨p, hp, Or.inr h⟩
    · exact Or.inr h

/-- The rm target scan rejects exactly when some non-flag token is
dangerous. -/
theorem rmScan_false_iff (rest : List String) :
    (rmScan rest).1 = false ↔
      ∃ t ∈ rest, strStarts t "-" = false ∧ rmDangerousToken t = true := by
  induction rest with
  | nil => simp [rmScan]
  | cons t ts ih =>
    by_cases hf : strStarts t "-" = true
    · rw [rmScan, if_pos hf, ih]
      constructor
      · rintro ⟨u, hu, h⟩
        exact ⟨u, List.mem_cons_of_mem t hu, h⟩
      · rintro ⟨u, hu, h⟩
        rcases List.mem_cons.mp hu with hu | hu
        · rw [hu] at h
          rw [h.1] at hf
          cases hf
        · exact ⟨u, hu, h⟩
    · by_cases hd : rmDangerousToken t = true
      · rw [rmScan, if_neg hf, if_pos hd]
        constructor
        · intro _
          exact ⟨t, List.mem_cons_self t ts, Bool.eq_false_iff.mpr hf, hd⟩
        · intro _
          rfl
      · rw [rmScan, if_neg hf, if_neg hd, ih]
        constructor
        · rintro ⟨u, hu, h⟩
          exact ⟨u, List.mem_cons_of_mem t hu, h⟩
        · rintro ⟨u, hu, h⟩
          rcases List.mem_cons.mp hu with hu | hu
          · rw [hu] at h
            exact absurd h.2 hd
          · exact ⟨u, hu, h⟩

/-- When the rm target scan accepts, it returns exactly `(true, "")`. -/
theorem rmScan_true (rest : List String) (h : (rmScan rest).1 = true) :
    rmScan rest = (true, "") := by
  induction rest with
  | nil => rfl
  | cons t ts ih =>
    by_cases hf : strStarts t "-" = true
    · rw [rmScan, if_pos hf] at h ⊢
      exact ih h
    · by_cases hd : rmDangerousToken t = true
      · rw [rmScan, if_neg hf, if_pos hd] at h
        cases h
      · rw [rmScan, if_neg hf, if_neg hd] at h ⊢
        exact ih h

/-- C3 (amended): a parseable rm command is rejected exactly when some
non-flag target matches a dangerous pattern — one of `/`, `..`, `~`,
`*`, `/*`, `/home`, `/usr`, `/etc`, `/var`, `/bin`, `/lib`, `/opt`
(each optionally followed by one trailing newline, per Python `$`
semantics), or any path beginning with `../` — and every other
parseable rm command is allowed with `(True, "")` regardless of the
flags present; in particular `rm -rf /` is rejected and
`rm -rf ./build` is allowed. -/
theorem C3_rm_validator_amended :
    (∀ (s : String) (rest : List String),
      shlexSplit s = some ("rm" :: rest) →
      (((validate_rm_command s).1 = false) ↔
        ∃ t ∈ rest, strStarts t "-" = false ∧
          (t ∈ rmExactDanger ∨ (∃ p ∈ rmExactDanger, t = p ++ "\n") ∨
            strStarts t "../" = true)) ∧
      ((validate_rm_command s).1 = true →
        validate_rm_command s = (true, ""))) ∧
    (validate_rm_command "rm -rf /").1 = false ∧
    validate_rm_command "rm -rf ./build" = (true, "") := by
  refine ⟨?_, by decide, by decide⟩
  intro s rest h
  have hv : validate_rm_command s = rmScan rest := by
    simp [validate_rm_command, h]
  rw [hv]
  constructor
  · rw [rmScan_false_iff]
    constructor
    · rintro ⟨t, ht, hf, hd⟩
      exact ⟨t, ht, hf, (rmDangerousToken_iff t).mp hd⟩
    · rintro ⟨t, ht, hf, hd⟩
      exact ⟨t, ht, hf, (rmDangerousToken_iff t).mpr hd⟩
  · exact rmScan_true rest

/-- C3 counterexample: the command `rm /\` followed by a newline is
parseable (token `"/\n"`); its target is none of the claim's exact
dangerous paths and does not begin with `../`, yet the validator
rejects it (Python `$` also matches before a trailing newline). -/
theorem C3_rm_counterexample :
    shlexSplit "rm /\\\n" = some ["rm", "/\n"] ∧
    ¬ ("/\n" ∈ rmExactDanger ∨ strStarts "/\n" "../" = true) ∧
    (validate_rm_command "rm /\\\n").1 = false := by decide

/-- Witness for C3 at the concrete command `rm -rf ./build`. -/
theorem C3_rm_validator_witness :
    validate_rm_command "rm -rf ./build" = (true, "") :=
  ((C3_rm_validator_amended.1 "rm -rf ./build" ["-rf", "./build"]
    (by decide)).2) (by decide)

/-- C4 (amended): a parseable pkill command with no non-flag token is
rejected; otherwise its effective target — the last non-flag token, or
that token's first whitespace-separated word whenever the token
contains a space (the implementation never checks for `-f`) — decides
the verdict: allowed iff the target is in the fixed dev-process
allow-set, rejected with the truncated allow-set shown otherwise,
except that a whitespace-only target containing a space raises an
uncaught `IndexError` (neither allowed nor rejected);
`validate_killall_command` delegates to `validate_pkill_command`;
`pkill node` is allowed and `pkill -f systemd` is rejected. -/
theorem C4_pkill_allowlist_amended :
    (∀ (s : String) (rest : List String),
      shlexSplit s = some ("pkill" :: rest) →
      ((rest.filter (fun t => !strStarts t "-")) = [] →
        validate_pkill_command s =
          some (false, "pkill requires a process name")) ∧
      (∀ tgt : String,
        (rest.filter (fun t => !strStarts t "-")).getLast? = some tgt →
        (pkillEffectiveTarget tgt = none →
          validate_pkill_command s = none) ∧
        (∀ w : String, pkillEffectiveTarget tgt = some w →
          validate_pkill_command s =
            some (if allowed_process_names.contains w then (true, "")
              else (false, pkillRejectReason))))) ∧
    (∀ s : String, validate_killall_command s = validate_pkill_command s) ∧
    validate_pkill_command "pkill node" = some (true, "") ∧
    validate_pkill_command "pkill -f systemd" =
      some (false, pkillRejectReason) := by
  refine ⟨?_, fun s => rfl, by decide, by decide⟩
  intro s rest h
  refine ⟨?_, ?_⟩
  · intro ha
    simp [validate_pkill_command, h, ha]
  · intro tgt htgt
    unfold pkillEffectiveTarget
    by_cases hsp : strHasChar tgt ' ' = true
    · rw [if_pos hsp]
      cases hh : (pyStrSplit tgt).head? with
      | none =>
        constructor
        · intro _
          simp [validate_pkill_command, h, htgt, hsp, hh]
        · intro w hw
          cases hw
      | some w0 =>
        constructor
        · intro hn
          cases hn
        · intro w hw
          obtain rfl : w0 = w := Option.some.inj hw
          by_cases hc : w0 ∈ allowed_process_names
          · simp [validate_pkill_command, h, htgt, hsp, hh, hc]
          · simp [validate_pkill_command, h, htgt, hsp, hh, hc]
    · rw [if_neg hsp]
      constructor
      · intro hn
        cases hn
      · intro w hw
        obtain rfl : tgt = w := Option.some.inj hw
        by_cases hc : tgt ∈ allowed_process_names
        · simp [validate_pkill_command, h, htgt, hsp, hc]
        · simp [validate_pkill_command, h, htgt, hsp, hc]

/-- C4 counterexample: `pkill \ ` parses to the whitespace-only target
`" "`, which is not in the allow-set, yet the validator neither allows
nor rejects it — the uncaught `IndexError` from `target.split()[0]`
escapes (modelled as `none`). -/
theorem C4_pkill_counterexample :
    shlexSplit "pkill \\ " = some ["pkill", " "] ∧
    validate_pkill_command "pkill \\ " = none := by decide

/-- Witness for C4 at the concrete command `pkill -f systemd`. -/
theorem C4_pkill_allowlist_witness :
    validate_pkill_command "pkill -f systemd" =
      some (if allowed_process_names.contains "systemd" then
        ((true : Bool), "") else (false, pkillRejectReason)) :=
  ((C4_pkill_allowlist_amended.1 "pkill -f systemd" ["-f", "systemd"]
    (by decide)).2 "systemd" (by decide)).2 "systemd" (by decide)

/-- C9 (amended): when `run_qa_validation_loop` is entered on a
complete build whose `qa_signoff.status` is already `"approved"`, it
returns `True` immediately, with no reviewer or fixer agent session
and with `qa_iteration_history` (indeed the whole plan state)
untouched. -/
theorem C9_qa_approved_short_circuit (env : QALoopEnv) (st : QAPlanState)
    (hb : st.buildComplete = true) (ha : st.signoffStatus = "approved") :
    run_qa_validation_loop env st = (true, ⟨st, 0, 0⟩) := by
  simp [run_qa_validation_loop, hb, ha]

/-- Witness for C9 at a concrete environment and approved state. -/
theorem C9_qa_approved_short_circuit_witness :
    run_qa_validation_loop
      ⟨fun _ => ⟨"rejected", "r", [Issue.titled "x"]⟩, fun _ => ("ok", "")⟩
      ⟨true, "approved", [], [⟨1, "approved", []⟩], false, false, false⟩ =
      (true, ⟨⟨true, "approved", [], [⟨1, "approved", []⟩], false, false,
        false⟩, 0, 0⟩) :=
  C9_qa_approved_short_circuit _ _ rfl rfl

/-- C9 counterexample: entered with `qa_signoff.status == "approved"`
but an incomplete build, the loop returns `False`, not `True` — the
completeness check precedes the approval check. -/
theorem C9_qa_approved_counterexample :
    (⟨false, "approved", [], [], false, false, false⟩ :
      QAPlanState).signoffStatus = "approved" ∧
    (run_qa_validation_loop
      ⟨fun _ => ⟨"approved", "", []⟩, fun _ => ("", "")⟩
      ⟨false, "approved", [], [], false, false, false⟩).1 = false := by decide

/-- The research retry loop always reports success. -/
theorem researchGo_success (env : PhaseEnv) :
    ∀ rem attempt calls errs fs,
      (researchGo env rem attempt calls errs fs).res.success = true := by
  intro rem
  induction rem with
  | zero => intro _ _ _ _; rfl
  | succ rem ih =>
    intro attempt calls errs fs
    rw [researchGo]
    split
    · rfl
    · split
      · rfl
      · exact ih _ _ _ _

/-- The context retry loop always reports success. -/
theorem contextGo_success (env : PhaseEnv) :
    ∀ rem attempt calls errs fs,
      (contextGo env rem attempt calls errs fs).res.success = true := by
  intro rem
  induction rem with
  | zero => intro _ _ _ _; rfl
  | succ rem ih =>
    intro attempt calls errs fs
    rw [contextGo]
    split
    · rfl
    · exact ih _ _ _ _

/-- The self-critique retry loop always reports success. -/
theorem critiqueGo_success (env : PhaseEnv) :
    ∀ rem attempt calls errs fs,
      (critiqueGo env rem attempt calls errs fs).res.success = true := by
  intro rem
  induction rem with
  | zero => intro _ _ _ _; rfl
  | succ rem ih =>
    intro attempt calls errs fs
    rw [critiqueGo]
    split
    · split
      · dsimp only
        split
        · rfl
        · exact ih _ _ _ _
      · dsimp only
        split
        · rfl
        · exact ih _ _ _ _
    · exact ih _ _ _ _

/-- C7 (amended): `phase_research` and `phase_context` always return a
successful `PhaseResult` (degrading to a placeholder artifact rather
than failing), and `phase_self_critique` does so whenever `spec.md`
exists; with `spec.md` missing it returns `success = False`. -/
theorem C7_soft_phases_succeed (env : PhaseEnv) (fs : SpecFS) :
    (phase_research env fs).res.success = true ∧
    (phase_context env fs).res.success = true ∧
    (fs.files.contains "spec.md" = true →
      (phase_self_critique env fs).res.success = true) := by
  refine ⟨?_, ?_, ?_⟩
  · rw [phase_research]
    split
    · rfl
    · split
      · rfl
      · exact researchGo_success env _ _ _ _ _
  · rw [phase_context]
    split
    · rfl
    · exact contextGo_success env _ _ _ _ _
  · intro hspec
    rw [phase_self_critique]
    split
    · next hno => rw [hspec] at hno; cases hno
    · split
      · rfl
      · exact critiqueGo_success env _ _ _ _ _

/-- Witness for C7 at a concrete environment and a directory holding
only `spec.md`. -/
theorem C7_soft_phases_succeed_witness :
    (phase_self_critique phaseEnvA ⟨["spec.md"], false, false,
      none⟩).res.success = true :=
  (C7_soft_phases_succeed phaseEnvA ⟨["spec.md"], false, false, none⟩).2.2
    (by decide)

/-- C7 counterexample: invoked on a spec directory without `spec.md`,
`phase_self_critique` returns `success = False` — it does not degrade
to a placeholder. -/
theorem C7_self_critique_counterexample :
    (phase_self_critique phaseEnvA fs0A).res.success = false := by decide

/-- Adding a file makes it present. -/
theorem contains_addFile (fs : SpecFS) (n : String) :
    (addFile fs n).files.contains n = true := by
  rw [addFile]
  by_cases hc : fs.files.contains n = true
  · rw [if_pos hc]; exact hc
  · rw [if_neg hc]
    simp

/-- Adding a file keeps every present file present. -/
theorem contains_addFile_mono (fs : SpecFS) (n m : String)
    (h : fs.files.contains m = true) :
    (addFile fs n).files.contains m = true := by
  rw [addFile]
  by_cases hc : fs.files.contains n = true
  · rw [if_pos hc]; exact h
  · rw [if_neg hc]
    have hm : m ∈ fs.files := by simpa using h
    simp [hm]

/-- Skip behaviour of `phase_requirements` when the artifact exists. -/
theorem phase_requirements_skip (env : PhaseEnv) (inter : Bool) (fs : SpecFS)
    (h : fs.files.contains "requirements.json" = true) :
    phase_requirements env inter fs =
      ⟨fs, ⟨"requirements", true, ["requirements.json"], [], 0⟩, 0⟩ := by
  rw [phase_requirements, if_pos h]

/-- A successful requirements phase leaves `requirements.json` present
and reports it as the output set. -/
theorem phase_requirements_shape (env : PhaseEnv) (inter : Bool)
    (fs : SpecFS) :
    (phase_requirements env inter fs).res.success = true →
    (phase_requirements env inter fs).fs.files.contains "requirements.json"
      = true ∧
    (phase_requirements env inter fs).res.output_files =
      ["requirements.json"] := by
  unfold phase_requirements
  split
  · next h1 => exact fun _ => ⟨h1, rfl⟩
  · split
    · exact fun _ => ⟨contains_addFile fs _, rfl⟩
    · split
      · split
        · exact fun _ => ⟨contains_addFile fs _, rfl⟩
        · intro h
          cases h
      · exact fun _ => ⟨contains_addFile fs _, rfl⟩

/-- Skip behaviour of `phase_research`. -/
theorem phase_research_skip (env : PhaseEnv) (fs : SpecFS)
    (h : fs.files.contains "research.json" = true) :
    phase_research env fs =
      ⟨fs, ⟨"research", true, ["research.json"], [], 0⟩, 0⟩ := by
  rw [phase_research, if_pos h]

/-- The research retry loop leaves `research.json` present and reports
it as the output set. -/
theorem researchGo_shape (env : PhaseEnv) :
    ∀ rem attempt calls errs fs,
      (researchGo env rem attempt calls errs fs).fs.files.contains
        "research.json" = true ∧
      (researchGo env rem attempt calls errs fs).res.output_files =
        ["research.json"] := by
  intro rem
  induction rem with
  | zero => exact fun _ _ _ fs => ⟨contains_addFile fs _, rfl⟩
  | succ rem ih =>
    intro attempt calls errs fs
    rw [researchGo]
    split
    · next hb => exact ⟨(Bool.and_eq_true _ _ |>.mp hb).2, rfl⟩
    · split
      · exact ⟨contains_addFile _ _, rfl⟩
      · exact ih _ _ _ _

/-- The research phase leaves `research.json` present and reports it
as the output set. -/
theorem phase_research_shape (env : PhaseEnv) (fs : SpecFS) :
    (phase_research env fs).fs.files.contains "research.json" = true ∧
    (phase_research env fs).res.output_files = ["research.json"] := by
  unfold phase_research
  split
  · next h1 => exact ⟨h1, rfl⟩
  · split
    · exact ⟨contains_addFile fs _, rfl⟩
    · exact researchGo_shape env _ _ _ _ _

/-- Skip behaviour of `phase_context`. -/
theorem phase_context_skip (env : PhaseEnv) (fs : SpecFS)
    (h : fs.files.contains "context.json" = true) :
    phase_context env fs =
      ⟨fs, ⟨"context", true, ["context.json"], [], 0⟩, 0⟩ := by
  rw [phase_context, if_pos h]

/-- The context retry loop always reports `context.json` as the output
set. -/
theorem contextGo_out (env : PhaseEnv) :
    ∀ rem attempt calls errs fs,
      (contextGo env rem attempt calls errs fs).res.output_files =
        ["context.json"] := by
  intro rem
  induction rem with
  | zero => intro _ _ _ _; rfl
  | succ rem ih =>
    intro attempt calls errs fs
    rw [contextGo]
    split
    · rfl
    · exact ih _ _ _ _

/-- The context phase always reports `context.json` as the output
set. -/
theorem phase_context_out (env : PhaseEnv) (fs : SpecFS) :
    (phase_context env fs).res.output_files = ["context.json"] := by
  unfold phase_context
  split
  · rfl
  · exact contextGo_out env _ _ _ _ _

/-- Skip behaviour of `phase_historical_context`. -/
theorem phase_historical_skip (env : PhaseEnv) (fs : SpecFS)
    (h : fs.files.contains "graph_hints.json" = true) :
    phase_historical_context env fs =
      ⟨fs, ⟨"historical_context", true, ["graph_hints.json"], [], 0⟩, 0⟩ := by
  rw [phase_historical_context, if_pos h]

/-- The historical-context phase leaves `graph_hints.json` present and
reports it as the output set. -/
theorem phase_historical_shape (env : PhaseEnv) (fs : SpecFS) :
    (phase_historical_context env fs).fs.files.contains "graph_hints.json"
      = true ∧
    (phase_historical_context env fs).res.output_files =
      ["graph_hints.json"] := by
  unfold phase_historical_context
  split
  · next h1 => exact ⟨h1, rfl⟩
  · split
    · exact ⟨contains_addFile fs _, rfl⟩
    · dsimp only
      split <;> split <;>
        first
          | exact ⟨contains_addFile fs _, rfl⟩
          | (split <;> exact ⟨contains_addFile fs _, rfl⟩)

/-- Skip behaviour of `phase_quick_spec`. -/
theorem phase_quick_skip (env : PhaseEnv) (fs : SpecFS)
    (h1 : fs.files.contains "spec.md" = true)
    (h2 : fs.files.contains "implementation_plan.json" = true) :
    phase_quick_spec env fs =
      ⟨fs, ⟨"quick_spec", true, ["spec.md", "implementation_plan.json"],
        [], 0⟩, 0⟩ := by
  rw [phase_quick_spec, if_pos (by rw [h1, h2]; rfl)]

/-- A successful quick-spec loop leaves both artifacts present and
reports them as the output set. -/
theorem quickSpecGo_shape (env : PhaseEnv) :
    ∀ rem attempt calls errs fs,
      (quickSpecGo env rem attempt calls errs fs).res.success = true →
      (quickSpecGo env rem attempt calls errs fs).fs.files.contains
        "spec.md" = true ∧
      (quickSpecGo env rem attempt calls errs fs).fs.files.contains
        "implementation_plan.json" = true ∧
      (quickSpecGo env rem attempt calls errs fs).res.output_files =
        ["spec.md", "implementation_plan.json"] := by
  intro rem
  induction rem with
  | zero => intro _ _ _ _ h; cases h
  | succ rem ih =>
    intro attempt calls errs fs
    rw [quickSpecGo]
    split
    · next hb =>
      intro _
      dsimp only
      split
      · next hp => exact ⟨(Bool.and_eq_true _ _ |>.mp hb).2, hp, rfl⟩
      · exact ⟨contains_addFile_mono _ _ _ (Bool.and_eq_true _ _ |>.mp hb).2,
          contains_addFile _ _, rfl⟩
    · exact ih _ _ _ _

/-- A successful quick-spec phase leaves both artifacts present and
reports them as the output set. -/
theorem phase_quick_shape (env : PhaseEnv) (fs : SpecFS) :
    (phase_quick_spec env fs).res.success = true →
    (phase_quick_spec env fs).fs.files.contains "spec.md" = true ∧
    (phase_quick_spec env fs).fs.files.contains "implementation_plan.json"
      = true ∧
    (phase_quick_spec env fs).res.output_files =
      ["spec.md", "implementation_plan.json"] := by
  rw [phase_quick_spec]
  split
  · next hb =>
    exact fun _ => ⟨(Bool.and_eq_true _ _ |>.mp hb).1,
      (Bool.and_eq_true _ _ |>.mp hb).2, rfl⟩
  · exact quickSpecGo_shape env _ _ _ _ _

/-- Skip behaviour of `phase_spec_writing`. -/
theorem phase_spec_writing_skip (env : PhaseEnv) (fs : SpecFS)
    (h1 : fs.files.contains "spec.md" = true)
    (h2 : (env.validateSpecDoc fs).valid = true) :
    phase_spec_writing env fs =
      ⟨fs, ⟨"spec_writing", true, ["spec.md"], [], 0⟩, 0⟩ := by
  rw [phase_spec_writing, if_pos (by rw [h1, h2]; rfl)]

/-- A successful spec-writing loop leaves `spec.md` present and valid
and reports it as the output set. -/
theorem specWritingGo_shape (env : PhaseEnv) :
    ∀ rem attempt calls errs fs,
      (specWritingGo env rem attempt calls errs fs).res.success = true →
      (specWritingGo env rem attempt calls errs fs).fs.files.contains
        "spec.md" = true ∧
      (env.validateSpecDoc
        (specWritingGo env rem attempt calls errs fs).fs).valid = true ∧
      (specWritingGo env rem attempt calls errs fs).res.output_files =
        ["spec.md"] := by
  intro rem
  induction rem with
  | zero => intro _ _ _ _ h; cases h
  | succ rem ih =>
    intro attempt calls errs fs
    rw [specWritingGo]
    split
    · next hb =>
      dsimp only
      split
      · next hv => exact fun _ => ⟨(Bool.and_eq_true _ _ |>.mp hb).2, hv, rfl⟩
      · exact ih _ _ _ _
    · exact ih _ _ _ _

/-- A successful spec-writing phase leaves `spec.md` present and valid
and reports it as the output set. -/
theorem phase_spec_writing_shape (env : PhaseEnv) (fs : SpecFS) :
    (phase_spec_writing env fs).res.success = true →
    (phase_spec_writing env fs).fs.files.contains "spec.md" = true ∧
    (env.validateSpecDoc (phase_spec_writing env fs).fs).valid = true ∧
    (phase_spec_writing env fs).res.output_files = ["spec.md"] := by
  rw [phase_spec_writing]
  split
  · next hb =>
    exact fun _ => ⟨(Bool.and_eq_true _ _ |>.mp hb).1,
      (Bool.and_eq_true _ _ |>.mp hb).2, rfl⟩
  · exact specWritingGo_shape env _ _ _ _ _

/-- Skip behaviour of `phase_self_critique` when the spec exists and a
prior critique concluded. -/
theorem phase_self_critique_skip (env : PhaseEnv) (fs : SpecFS)
    (h1 : fs.files.contains "spec.md" = true)
    (h2 : fs.files.contains "critique_report.json" = true)
    (h3 : (fs.critIssuesFixed || fs.critNoIssues) = true) :
    phase_self_critique env fs =
      ⟨fs, ⟨"self_critique", true, ["critique_report.json"], [], 0⟩, 0⟩ := by
  have hn : ¬((!fs.files.contains "spec.md") = true) := by rw [h1]; decide
  rw [phase_self_critique, if_neg hn, if_pos (by rw [h2, h3]; rfl)]

/-- The critique loop always leaves `critique_report.json` present. -/
theorem critiqueGo_contains (env : PhaseEnv) :
    ∀ rem attempt calls errs fs,
      (critiqueGo env rem attempt calls errs fs).fs.files.contains
        "critique_report.json" = true := by
  intro rem
  induction rem with
  | zero => exact fun _ _ _ fs => contains_addFile fs _
  | succ rem ih =>
    intro attempt calls errs fs
    rw [critiqueGo]
    split
    · split
      · next hp =>
        dsimp only
        split
        · exact hp
        · exact ih _ _ _ _
      · dsimp only
        split
        · exact contains_addFile _ _
        · exact ih _ _ _ _
    · exact ih _ _ _ _

/-- The critique loop always reports `critique_report.json` as the
output set. -/
theorem critiqueGo_out (env : PhaseEnv) :
    ∀ rem attempt calls errs fs,
      (critiqueGo env rem attempt calls errs fs).res.output_files =
        ["critique_report.json"] := by
  intro rem
  induction rem with
  | zero => intro _ _ _ _; rfl
  | succ rem ih =>
    intro attempt calls errs fs
    rw [critiqueGo]
    split
    · split
      · dsimp only
        split
        · rfl
        · exact ih _ _ _ _
      · dsimp only
        split
        · rfl
        · exact ih _ _ _ _
    · exact ih _ _ _ _

/-- A successful self-critique phase leaves `critique_report.json`
present and reports it as the output set. -/
theorem phase_self_critique_shape (env : PhaseEnv) (fs : SpecFS) :
    (phase_self_critique env fs).res.success = true →
    (phase_self_critique env fs).fs.files.contains "critique_report.json"
      = true ∧
    (phase_self_critique env fs).res.output_files =
      ["critique_report.json"] := by
  rw [phase_self_critique]
  split
  · intro h; cases h
  · split
    · next hb => exact fun _ => ⟨(Bool.and_eq_true _ _ |>.mp hb).1, rfl⟩
    · exact fun _ => ⟨critiqueGo_contains env _ _ _ _ _,
        critiqueGo_out env _ _ _ _ _⟩

/-- Skip behaviour of `phase_planning` on an existing valid plan. -/
theorem phase_planning_skip (env : PhaseEnv) (fs : SpecFS)
    (h1 : fs.files.contains "implementation_plan.json" = true)
    (h2 : (env.validatePlanDoc fs).valid = true) :
    phase_planning env fs =
      ⟨fs, ⟨"planning", true, ["implementation_plan.json"], [], 0⟩, 0⟩ := by
  rw [phase_planning, if_pos (by rw [h1, h2]; rfl)]

/-- A successful planner-agent loop ends with a plan document the
validator accepts and reports the plan as the output set. -/
theorem planningAgentGo_shape (env : PhaseEnv) :
    ∀ rem attempt calls errs fs,
      (planningAgentGo env rem attempt calls errs fs).res.success = true →
      (env.validatePlanDoc
        (planningAgentGo env rem attempt calls errs fs).fs).valid = true ∧
      (planningAgentGo env rem attempt calls errs fs).res.output_files =
        ["implementation_plan.json"] := by
  intro rem
  induction rem with
  | zero => intro _ _ _ _ h; cases h
  | succ rem ih =>
    intro attempt calls errs fs
    rw [planningAgentGo]
    split
    · dsimp only
      split
      · next hv => exact fun _ => ⟨hv, rfl⟩
      · split
        · next hf => exact fun _ => ⟨(Bool.and_eq_true _ _ |>.mp hf).2, rfl⟩
        · exact ih _ _ _ _
    · exact ih _ _ _ _

/-- A successful planning phase ends with a plan document the validator
accepts and reports the plan as the output set. -/
theorem phase_planning_shape (env : PhaseEnv) (fs : SpecFS) :
    (phase_planning env fs).res.success = true →
    (env.validatePlanDoc (phase_planning env fs).fs).valid = true ∧
    (phase_planning env fs).res.output_files =
      ["implementation_plan.json"] := by
  rw [phase_planning]
  split
  · next hb => exact fun _ => ⟨(Bool.and_eq_true _ _ |>.mp hb).2, rfl⟩
  · dsimp only
    split
    · split
      · next hv => exact fun _ => ⟨hv, rfl⟩
      · split
        · next hf => exact fun _ => ⟨(Bool.and_eq_true _ _ |>.mp hf).2, rfl⟩
        · exact planningAgentGo_shape env _ _ _ _ _
    · exact planningAgentGo_shape env _ _ _ _ _

/-- Skip behaviour of `phase_validation` when everything validates. -/
theorem phase_validation_skip (env : PhaseEnv) (fs : SpecFS)
    (h : (env.validateAll fs).all (fun r => r.valid) = true) :
    phase_validation env fs = ⟨fs, ⟨"validation", true, [], [], 0⟩, 0⟩ := by
  rw [phase_validation, show MAX_RETRIES = 2 + 1 from rfl, validationGo,
    if_pos h]

/-- A successful validation loop ends in a state where every checkpoint
validates and reports an empty output set. -/
theorem validationGo_valid (env : PhaseEnv) :
    ∀ rem attempt calls fs,
      (validationGo env rem attempt calls fs).res.success = true →
      (env.validateAll (validationGo env rem attempt calls fs).fs).all
        (fun r => r.valid) = true ∧
      (validationGo env rem attempt calls fs).res.output_files = [] := by
  intro rem
  induction rem with
  | zero => intro _ _ _ h; cases h
  | succ rem ih =>
    intro attempt calls fs
    rw [validationGo]
    split
    · next hv => exact fun _ => ⟨hv, rfl⟩
    · split
      · intro h; cases h
      · dsimp only
        exact ih _ _ _

/-- A successful validation phase ends in a state where every
checkpoint validates and reports an empty output set. -/
theorem phase_validation_shape (env : PhaseEnv) (fs : SpecFS) :
    (phase_validation env fs).res.success = true →
    (env.validateAll (phase_validation env fs).fs).all
      (fun r => r.valid) = true ∧
    (phase_validation env fs).res.output_files = [] := by
  unfold phase_validation
  exact validationGo_valid env _ _ _ fs

/-- C8 (amended): phase re-entry is idempotent for every phase except
discovery. After a successful first run, a second run of requirements,
research, context, historical-context, quick-spec, spec-writing,
self-critique, planning or validation makes no agent/script invocation
and returns success with zero retries and the identical output file
set — provided the artifact the skip check looks for actually exists
after the first run: context needs `context.json` present (the context
script's success is not checked against the file), self-critique
additionally needs `spec.md` still present and a concluded critique
flag, and planning needs the plan file present (the auto-fix pass is
not checked against the file). `phase_discovery` has no skip check and
re-runs the analyzer script every time. -/
theorem C8_idempotent_reentry_amended (env : PhaseEnv) (inter : Bool)
    (fs : SpecFS) :
    ((phase_requirements env inter fs).res.success = true →
      idempotentAfter (phase_requirements env inter) fs) ∧
    idempotentAfter (phase_research env) fs ∧
    ((phase_context env fs).fs.files.contains "context.json" = true →
      idempotentAfter (phase_context env) fs) ∧
    idempotentAfter (phase_historical_context env) fs ∧
    ((phase_quick_spec env fs).res.success = true →
      idempotentAfter (phase_quick_spec env) fs) ∧
    ((phase_spec_writing env fs).res.success = true →
      idempotentAfter (phase_spec_writing env) fs) ∧
    ((phase_self_critique env fs).res.success = true →
      (phase_self_critique env fs).fs.files.contains "spec.md" = true →
      ((phase_self_critique env fs).fs.critIssuesFixed ||
        (phase_self_critique env fs).fs.critNoIssues) = true →
      idempotentAfter (phase_self_critique env) fs) ∧
    ((phase_planning env fs).res.success = true →
      (phase_planning env fs).fs.files.contains "implementation_plan.json"
        = true →
      idempotentAfter (phase_planning env) fs) ∧
    ((phase_validation env fs).res.success = true →
      idempotentAfter (phase_validation env) fs) := by
  refine ⟨?_, ?_, ?_, ?_, ?_, ?_, ?_, ?_, ?_⟩
  · intro h
    obtain ⟨hc, hout⟩ := phase_requirements_shape env inter fs h
    unfold idempotentAfter
    rw [phase_requirements_skip env inter _ hc, hout]
    exact ⟨rfl, rfl, rfl, rfl⟩
  · obtain ⟨hc, hout⟩ := phase_research_shape env fs
    unfold idempotentAfter
    rw [phase_research_skip env _ hc, hout]
    exact ⟨rfl, rfl, rfl, rfl⟩
  · intro hc
    unfold idempotentAfter
    rw [phase_context_skip env _ hc, phase_context_out env fs]
    exact ⟨rfl, rfl, rfl, rfl⟩
  · obtain ⟨hc, hout⟩ := phase_historical_shape env fs
    unfold idempotentAfter
    rw [phase_historical_skip env _ hc, hout]
    exact ⟨rfl, rfl, rfl, rfl⟩
  · intro h
    obtain ⟨h1, h2, hout⟩ := phase_quick_shape env fs h
    unfold idempotentAfter
    rw [phase_quick_skip env _ h1 h2, hout]
    exact ⟨rfl, rfl, rfl, rfl⟩
  · intro h
    obtain ⟨h1, h2, hout⟩ := phase_spec_writing_shape env fs h
    unfold idempotentAfter
    rw [phase_spec_writing_skip env _ h1 h2, hout]
    exact ⟨rfl, rfl, rfl, rfl⟩
  · intro h hs hf
    obtain ⟨h1, hout⟩ := phase_self_critique_shape env fs h
    unfold idempotentAfter
    rw [phase_self_critique_skip env _ hs h1 hf, hout]
    exact ⟨rfl, rfl, rfl, rfl⟩
  · intro h hp
    obtain ⟨hv, hout⟩ := phase_planning_shape env fs h
    unfold idempotentAfter
    rw [phase_planning_skip env _ hp hv, hout]
    exact ⟨rfl, rfl, rfl, rfl⟩
  · intro h
    obtain ⟨hv, hout⟩ := phase_validation_shape env fs h
    unfold idempotentAfter
    rw [phase_validation_skip env _ hv, hout]
    exact ⟨rfl, rfl, rfl, rfl⟩

/-- C8 counterexample: `phase_discovery` has no existing-artifact skip
check — on the concrete environment `phaseEnvA` the first run succeeds,
yet the second run still invokes the analyzer script once, refuting
the blanket "for every phase" claim. -/
theorem C8_discovery_counterexample :
    (phase_discovery phaseEnvA fs0A).res.success = true ∧
    (phase_discovery phaseEnvA (phase_discovery phaseEnvA fs0A).fs).calls
      = 1 := by
  decide

/-- C8 witness: the amended theorem applied on the concrete environment
`phaseEnvA`, with the side conditions of the requirements and context
conjuncts discharged by evaluation. -/
theorem C8_idempotent_reentry_witness :
    idempotentAfter (phase_requirements phaseEnvA false) fs0A ∧
    idempotentAfter (phase_research phaseEnvA) fs0A ∧
    idempotentAfter (phase_context phaseEnvA) fs0A :=
  ⟨(C8_idempotent_reentry_amended phaseEnvA false fs0A).1 (by decide),
   (C8_idempotent_reentry_amended phaseEnvA false fs0A).2.1,
   (C8_idempotent_reentry_amended phaseEnvA false fs0A).2.2.1 (by decide)⟩
